import Mathlib

/-!
# INAV canvas OSD renderers (`src/main/io/osd_canvas.c`)

A shallow embedding of the instrument renderers of `osd_canvas.c`, and of the
VTX menu callbacks of `src/main/cms/cms_menu_vtx.c`.

Conventions of the embedding

* A canvas primitive (`displayCanvas...`, `osdGridBufferClearPixelRect`) does not
  return a value; a renderer is embedded as the list of primitive calls it issues,
  in order (`CanvasCall`).
* A `float` is an IEEE 754 binary32 number, embedded as the rational it denotes.
  Every `float` operation of the source (`+`, `-`, `*`, `/`, the conversion of
  an `int`) is the exact operation followed by `f32`, rounding to the nearest
  `float`, halves to even, with denormals. The range of the exponent is not
  bounded above: overflow to an infinity, and NaN, are outside the model, and
  so is a division by a zero macro; the sign of a zero is not kept.
* The two `double` products of the source (an `int` by `3.0 / 4`, by `-1.5` or by
  `-1.0`) are exact.
* The conversion of a `float` to `int` truncates toward zero (`floatToInt`). When
  the truncated value is outside the 32-bit range, C leaves the result open and
  the processor fixes it (the ARM flight controllers saturate at the ends of the
  range, an x86 simulator target gives `INT_MIN`): the result is then the 32-bit
  value of the field `floatToIntOutOfRange` of the configuration.
* `int` arithmetic on values computed from the pitch (the level index `ii` and
  what is derived from it) wraps modulo `2 ^ 32` (`wrapInt`); C leaves signed
  overflow open. Arithmetic on grid positions and canvas metrics is exact. `/`
  and `%` on `int` are the truncating `Int.tdiv` and `Int.tmod` of C.
* `timeMs_t` is a 32-bit unsigned millisecond counter: `now + 1000` wraps
  modulo `2 ^ 32`.
* A `displayCanvas_t *` is an `Option displayCanvas_t`; reading a field through
  the null handle has no result (`none`).
* Function-local `static` variables become an explicit state record passed in
  and returned.
* Macros and symbols of headers that are not part of the sources at hand
  (`OSD_VARIO_CM_S_PER_ARROW`, `OSD_AHI_WIDTH`, `RAD`, `sin_approx`, ...) are the
  fields of `OsdConfig`.
-/

namespace Inav

/-! ## Data model -/

/-- Colours of `displayCanvasColor_e` (`display_canvas.h`). -/
inductive displayCanvasColor_e
  | DISPLAY_CANVAS_COLOR_BLACK
  | DISPLAY_CANVAS_COLOR_TRANSPARENT
  | DISPLAY_CANVAS_COLOR_WHITE
  | DISPLAY_CANVAS_COLOR_GRAY
  deriving DecidableEq, Repr

/-- Line outline types used by the artificial horizon. -/
inductive displayCanvasOutlineType_e
  | DISPLAY_CANVAS_OUTLINE_TYPE_BOTTOM
  | DISPLAY_CANVAS_OUTLINE_TYPE_LEFT
  | DISPLAY_CANVAS_OUTLINE_TYPE_RIGHT
  deriving DecidableEq, Repr

/-- Characters handed to the character and string primitives: the font symbols
of `osd_symbols.h` that `osd_canvas.c` names, and plain text characters. -/
inductive osdChar
  | SYM_VARIO_UP_2A
  | SYM_VARIO_DOWN_2A
  | SYM_HEADING_N
  | SYM_HEADING_E
  | SYM_HEADING_S
  | SYM_HEADING_W
  | SYM_HEADING_LINE
  | SYM_HEADING_DIVIDED_LINE
  | ascii (c : Char)
  deriving DecidableEq, Repr

/-- The bitmap option `DISPLAY_CANVAS_BITMAP_OPT_ERASE_TRANSPARENT = 1 << 2`. -/
def DISPLAY_CANVAS_BITMAP_OPT_ERASE_TRANSPARENT : Nat := 4

/-- The fields of `displayCanvas_t` that `osd_canvas.c` reads. -/
structure displayCanvas_t where
  width : Nat
  height : Nat
  gridElementWidth : Nat
  gridElementHeight : Nat
  deriving DecidableEq, Repr

/-- One call of a canvas primitive, with its arguments (the canvas handle left out). -/
inductive CanvasCall
  | clipToRect (x y w h : Int)
  | drawCharacter (x y : Int) (chr : osdChar) (opts : Nat)
  | drawCharacterMask (x y : Int) (chr : osdChar) (color : displayCanvasColor_e) (opts : Nat)
  | drawString (x y : Int) (s : List osdChar) (opts : Nat)
  | drawStringMask (x y : Int) (s : List osdChar) (color : displayCanvasColor_e) (opts : Nat)
  | setStrokeColor (color : displayCanvasColor_e)
  | setFillColor (color : displayCanvasColor_e)
  | setStrokeAndFillColor (color : displayCanvasColor_e)
  | setLineOutlineType (t : displayCanvasOutlineType_e)
  | setLineOutlineColor (color : displayCanvasColor_e)
  | fillRect (x y w h : Int)
  | moveToPoint (x y : Int)
  | strokeLineToPoint (x y : Int)
  | fillStrokeTriangle (x1 y1 x2 y2 x3 y3 : Int)
  | ctmTranslate (tx ty : ℚ)
  | ctmScale (sx sy : ℚ)
  | ctmRotate (r : ℚ)
  | contextPush
  | contextPop
  | gridBufferClearPixelRect (x y w h : Int)
  deriving DecidableEq, Repr

/-! ## Floating point and machine integers -/

/-- The nearest integer, halves to the even neighbour. -/
def roundHalfEven (q : ℚ) : Int :=
  if q - ⌊q⌋ < 1 / 2 then ⌊q⌋
  else if 1 / 2 < q - ⌊q⌋ then ⌊q⌋ + 1
  else if ⌊q⌋ % 2 = 0 then ⌊q⌋ else ⌊q⌋ + 1

/-- The exponent of the unit in the last place of a `float` near `x`: 24 bits of
significand, denormals below `2 ^ (-126)`. -/
def floatUlpExp (x : ℚ) : Int := max (Int.log 2 |x|) (-126) - 23

/-- The `float` (IEEE 754 binary32, round to nearest even) nearest to `x`. -/
def f32 (x : ℚ) : ℚ :=
  if 0 ≤ x then ((roundHalfEven (x / 2 ^ floatUlpExp x) : Int) : ℚ) * 2 ^ floatUlpExp x
  else -(((roundHalfEven (-x / 2 ^ floatUlpExp x) : Int) : ℚ) * 2 ^ floatUlpExp x)

/-- Conversion of an `int` to `float`. -/
def intToFloat (n : Int) : ℚ := f32 (n : ℚ)

/-- Truncation of a rational toward zero. -/
def truncf (q : ℚ) : Int := if 0 ≤ q then ⌊q⌋ else ⌈q⌉

/-- The 32-bit two's complement value of an `int` result. -/
def wrapInt (n : Int) : Int := (n + 2 ^ 31) % 2 ^ 32 - 2 ^ 31

/-! ## Configuration -/

/-- Macros and functions of headers outside the sources at hand, and the result of a
conversion of a `float` to `int` out of range, which C leaves to the processor. -/
structure OsdConfig where
  OSD_VARIO_CM_S_PER_ARROW : Int
  OSD_VARIO_HEIGHT_ROWS : Nat
  OSD_AHI_WIDTH : Int
  OSD_AHI_HEIGHT : Int
  OSD_HEADING_GRAPH_WIDTH : Nat
  OSD_HEADING_GRAPH_DECIDEGREES_PER_CHAR : Int
  RAD : ℚ
  sin_approx : ℚ → ℚ
  cos_approx : ℚ → ℚ
  floatToIntOutOfRange : ℚ → Int

/-- The values of the macros in the upstream headers. `RAD` is the `float` that
`M_PIf / 180.0f` evaluates to, `9370165 / 2 ^ 29`; the two trigonometric
approximations are stand-ins; a conversion to `int` out of range saturates, as on the
ARM flight controllers. -/
def upstreamConfig : OsdConfig where
  OSD_VARIO_CM_S_PER_ARROW := 50
  OSD_VARIO_HEIGHT_ROWS := 5
  OSD_AHI_WIDTH := 11
  OSD_AHI_HEIGHT := 9
  OSD_HEADING_GRAPH_WIDTH := 9
  OSD_HEADING_GRAPH_DECIDEGREES_PER_CHAR := 225
  RAD := 9370165 / 2 ^ 29
  sin_approx := fun x => x
  cos_approx := fun x => f32 (1 - f32 (f32 (x * x) / 2))
  floatToIntOutOfRange := fun q => if 0 ≤ q then 2 ^ 31 - 1 else -2 ^ 31

/-- Conversion of a `float` (or `double`) to `int`: truncation toward zero when the
truncated value is between `INT_MIN = -2 ^ 31` and `INT_MAX = 2 ^ 31 - 1`, and otherwise
the `int` that the processor gives. -/
def floatToInt (K : OsdConfig) (q : ℚ) : Int :=
  if -2 ^ 31 ≤ truncf q ∧ truncf q ≤ 2 ^ 31 - 1 then truncf q
  else wrapInt (K.floatToIntOutOfRange q)

/-- A 30 x 16 character canvas with 12 x 18 pixel cells. -/
def sampleCanvas : displayCanvas_t where
  width := 360
  height := 288
  gridElementWidth := 12
  gridElementHeight := 18

/-- The C `roundf`: nearest integer, halves away from zero, as a `float`. -/
def roundf (q : ℚ) : ℚ := ((if 0 ≤ q then ⌊q + 1 / 2⌋ else ⌈q - 1 / 2⌉ : Int) : ℚ)

/-- The C `ceilf`. -/
def ceilf (q : ℚ) : ℚ := ((⌈q⌉ : Int) : ℚ)

/-- The C `floorf`. -/
def floorf (q : ℚ) : ℚ := ((⌊q⌋ : Int) : ℚ)

/-! ## Vario -/

/-- The `for` loop of `osdCanvasDrawVarioShape`: `n` iterations are left, the
next character goes to row `yy`. -/
def varioShapeLoop (x : Int) (sym : osdChar) (step : Int) (erase : Bool) :
    Nat → Int → List CanvasCall
  | 0, _ => []
  | n + 1, yy =>
    (if erase then
      CanvasCall.drawCharacterMask x yy sym displayCanvasColor_e.DISPLAY_CANVAS_COLOR_TRANSPARENT 0
    else
      CanvasCall.drawCharacter x yy sym 0) :: varioShapeLoop x sym step erase n (yy + step)

/-- `osdCanvasDrawVarioShape(canvas, ex, ey, zvel, erase)`. -/
def osdCanvasDrawVarioShape (K : OsdConfig) (canvas : Option displayCanvas_t) (ex ey : Nat)
    (zvel : ℚ) (erase : Bool) : Option (List CanvasCall) :=
  match canvas with
  | none => none
  | some c =>
    let rat : ℚ := f32 (zvel / intToFloat (K.OSD_VARIO_CM_S_PER_ARROW * 2))
    let height : Int := floatToInt K (f32 (-rat * intToFloat (c.gridElementHeight : Int)))
    let x : Int := (ex : Int) * (c.gridElementWidth : Int)
    let sym : osdChar := if zvel > 0 then osdChar.SYM_VARIO_UP_2A else osdChar.SYM_VARIO_DOWN_2A
    let start : Int :=
      if zvel > 0 then floatToInt K (ceilf (f32 (intToFloat (K.OSD_VARIO_HEIGHT_ROWS : Int) / 2)))
      else floatToInt K (floorf (f32 (intToFloat (K.OSD_VARIO_HEIGHT_ROWS : Int) / 2)))
    let dstart : Int := if zvel > 0 then start - 1 else start
    let step : Int := if zvel > 0 then -(c.gridElementHeight : Int) else (c.gridElementHeight : Int)
    let y : Int := (start + (ey : Int)) * (c.gridElementHeight : Int)
    let dy : Int := (dstart + (ey : Int)) * (c.gridElementHeight : Int)
    some (CanvasCall.clipToRect x y (c.gridElementWidth : Int) height ::
      varioShapeLoop x sym step erase ((K.OSD_VARIO_HEIGHT_ROWS + 1) / 2) dy)

/-- The value of `height` in `osdCanvasDrawVarioShape`: the `float` product `-ratio *
gridElementHeight`, with `ratio = zvel / (OSD_VARIO_CM_S_PER_ARROW * 2)`, converted to `int`. -/
def varioClipHeight (K : OsdConfig) (c : displayCanvas_t) (zvel : ℚ) : Int :=
  floatToInt K (f32 (-(f32 (zvel / intToFloat (K.OSD_VARIO_CM_S_PER_ARROW * 2))) *
    intToFloat (c.gridElementHeight : Int)))

/-- The `static float prev` of `osdCanvasDrawVario`. -/
structure VarioState where
  prev : ℚ
  deriving DecidableEq, Repr

/-- The initial value `static float prev = 0`. -/
def VarioState.init : VarioState := ⟨0⟩

/-- The deadband of the vario, the `float` value of `OSD_VARIO_CM_S_PER_ARROW / 20.0f`. -/
def varioDeadband (K : OsdConfig) : ℚ := f32 (intToFloat K.OSD_VARIO_CM_S_PER_ARROW / 20)

/-- `osdCanvasDrawVario(display, canvas, p, zvel)`; `ex`, `ey` are the grid
coordinates that `osdDrawPointGetGrid` returns for `p`. The test is
`fabsf(prev - zvel) < (OSD_VARIO_CM_S_PER_ARROW / 20.0f)`, on the `float` difference. -/
def osdCanvasDrawVario (K : OsdConfig) (st : VarioState) (canvas : Option displayCanvas_t)
    (ex ey : Nat) (zvel : ℚ) : Option (VarioState × List CanvasCall) :=
  if |f32 (st.prev - zvel)| < varioDeadband K then
    some (st, [])
  else
    match osdCanvasDrawVarioShape K canvas ex ey st.prev true with
    | none => none
    | some e =>
      match osdCanvasDrawVarioShape K canvas ex ey zvel false with
      | none => none
      | some d => some (⟨zvel⟩, e ++ d)

/-! ## Direction arrow -/

/-- `DEGREES_TO_RADIANS(angle)`, that is the `float` product `angle * RAD`. -/
def DEGREES_TO_RADIANS (K : OsdConfig) (angle : ℚ) : ℚ := f32 (angle * K.RAD)

/-- `RADIANS_TO_DEGREES(angle)`, that is the `float` quotient `angle / RAD`. -/
def RADIANS_TO_DEGREES (K : OsdConfig) (angle : ℚ) : ℚ := f32 (angle / K.RAD)

/-- `osdCanvasDrawDirArrow(display, canvas, p, degrees, eraseBefore)`; `px`, `py`
are the pixel coordinates that `osdDrawPointGetPixels` returns for `p`. -/
def osdCanvasDrawDirArrow (K : OsdConfig) (canvas : Option displayCanvas_t) (px py : Int)
    (degrees : ℚ) (eraseBefore : Bool) : Option (List CanvasCall) :=
  match canvas with
  | none => none
  | some c =>
    some (
      [CanvasCall.clipToRect px py (c.gridElementWidth : Int) (c.gridElementHeight : Int)] ++
      (if eraseBefore then
        [CanvasCall.setFillColor displayCanvasColor_e.DISPLAY_CANVAS_COLOR_TRANSPARENT,
         CanvasCall.fillRect px py (c.gridElementWidth : Int) (c.gridElementHeight : Int)]
      else []) ++
      [CanvasCall.setFillColor displayCanvasColor_e.DISPLAY_CANVAS_COLOR_WHITE,
       CanvasCall.setStrokeColor displayCanvasColor_e.DISPLAY_CANVAS_COLOR_BLACK,
       CanvasCall.ctmRotate (-(DEGREES_TO_RADIANS K degrees)),
       CanvasCall.ctmTranslate (intToFloat (px + Int.tdiv (c.gridElementWidth : Int) 2))
         (intToFloat (py + Int.tdiv (c.gridElementHeight : Int) 2)),
       CanvasCall.fillStrokeTriangle 0 6 5 (-6) (-5) (-6),
       CanvasCall.setFillColor displayCanvasColor_e.DISPLAY_CANVAS_COLOR_TRANSPARENT,
       CanvasCall.fillStrokeTriangle 0 (-2) 6 (-7) (-6) (-7),
       CanvasCall.moveToPoint 6 (-7),
       CanvasCall.setStrokeColor displayCanvasColor_e.DISPLAY_CANVAS_COLOR_TRANSPARENT,
       CanvasCall.strokeLineToPoint (-6) (-7)])

/-! ## Artificial horizon -/

/-- `osdDrawArtificialHorizonLevelLine(canvas, width, pos, margin, erase)`; the
canvas handle is only passed on to the primitives. -/
def osdDrawArtificialHorizonLevelLine (width pos margin : Int) (erase : Bool) :
    List CanvasCall :=
  let yoff : Int := if pos ≥ 0 then 10 else -10
  let yc : Int := wrapInt (-pos - 1)
  let sz : Int := Int.tdiv width 2
  [CanvasCall.setLineOutlineType displayCanvasOutlineType_e.DISPLAY_CANVAS_OUTLINE_TYPE_BOTTOM] ++
  (if erase then
    [CanvasCall.setStrokeColor displayCanvasColor_e.DISPLAY_CANVAS_COLOR_TRANSPARENT,
     CanvasCall.setLineOutlineColor displayCanvasColor_e.DISPLAY_CANVAS_COLOR_TRANSPARENT]
  else
    [CanvasCall.setStrokeColor displayCanvasColor_e.DISPLAY_CANVAS_COLOR_WHITE,
     CanvasCall.setLineOutlineColor displayCanvasColor_e.DISPLAY_CANVAS_COLOR_BLACK]) ++
  [CanvasCall.moveToPoint (-sz) yc,
   CanvasCall.strokeLineToPoint (-margin) yc,
   CanvasCall.moveToPoint sz yc,
   CanvasCall.strokeLineToPoint margin yc,
   CanvasCall.setLineOutlineType displayCanvasOutlineType_e.DISPLAY_CANVAS_OUTLINE_TYPE_LEFT,
   CanvasCall.moveToPoint (-sz) yc,
   CanvasCall.strokeLineToPoint (-sz) (wrapInt (yc + yoff)),
   CanvasCall.setLineOutlineType displayCanvasOutlineType_e.DISPLAY_CANVAS_OUTLINE_TYPE_RIGHT,
   CanvasCall.moveToPoint sz yc,
   CanvasCall.strokeLineToPoint sz (wrapInt (yc + yoff))]

/-- The `float` constant `pixelsPerDegreeLevel = 3.5f`. -/
def pixelsPerDegreeLevel : ℚ := 7 / 2

/-- The body of the first `for` loop of `osdDrawArtificialHorizonShapes` (bars). -/
def ahiBarBody (K : OsdConfig) (barWidth levelBarWidth : Int) (erase : Bool) (ii : Int) :
    List CanvasCall :=
  let crosshairMargin : Int := 6
  if ii = 0 then
    [CanvasCall.setLineOutlineType displayCanvasOutlineType_e.DISPLAY_CANVAS_OUTLINE_TYPE_BOTTOM,
     CanvasCall.moveToPoint (Int.tdiv (-barWidth) 2) 0,
     CanvasCall.strokeLineToPoint (-crosshairMargin) 0,
     CanvasCall.moveToPoint (Int.tdiv barWidth 2) 0,
     CanvasCall.strokeLineToPoint crosshairMargin 0]
  else
    let pos : Int := floatToInt K (f32 (intToFloat (wrapInt (ii * 10)) * pixelsPerDegreeLevel))
    let margin : Int := if ii > 9 ∨ ii < -9 then 9 else 6
    osdDrawArtificialHorizonLevelLine levelBarWidth (wrapInt (-pos)) margin erase

/-- The text that `tfp_snprintf(buf, sizeof(buf), "%d", n)` writes: the decimal form of `n`. -/
def formatDecimal (n : Int) : List osdChar :=
  (if n < 0 then [osdChar.ascii '-'] else []) ++ (Nat.repr n.natAbs).toList.map osdChar.ascii

/-- The body of the second `for` loop of `osdDrawArtificialHorizonShapes` (labels);
`ABS(level)` is `level > 0 ? level : -level`. -/
def ahiLabelBody (K : OsdConfig) (c : displayCanvas_t) (pitchOffset sx sy : ℚ) (erase : Bool)
    (ii : Int) : List CanvasCall :=
  if ii = 0 then []
  else
    let level : Int := wrapInt (ii * 10)
    let absLevel : Int := if level > 0 then level else wrapInt (-level)
    let buf : List osdChar := formatDecimal absLevel
    let pos : Int := floatToInt K (f32 (intToFloat level * pixelsPerDegreeLevel))
    let charY : Int := wrapInt (9 - pos * 2)
    let cx : Int :=
      floatToInt K ((if absLevel ≥ 100 then (-3 / 2 : ℚ) else -1) * (c.gridElementWidth : ℚ))
    let scaled : ℚ := f32 (pitchOffset + intToFloat pos)
    let px : Int := floatToInt K (f32 (intToFloat cx + f32 (f32 (scaled * sx) * 2)))
    let py : Int :=
      floatToInt K (f32 (intToFloat (wrapInt (-charY)) - f32 (f32 (scaled * f32 (1 - sy)) * 2)))
    if erase then
      [CanvasCall.drawStringMask px py buf displayCanvasColor_e.DISPLAY_CANVAS_COLOR_TRANSPARENT 0]
    else
      [CanvasCall.drawString px py buf 0]

/-- A loop `for (int ii = ...; ii <= hi; ii++) body(ii)` with a `float` bound `hi`: the
comparison converts `ii` to `float`. After the body at `ii = INT_MAX`, where `ii++`
has no value, the loop is cut. -/
def ahiLoop (body : Int → List CanvasCall) (hi : ℚ) (ii : Int) : List CanvasCall :=
  if intToFloat ii ≤ hi then
    body ii ++ (if ii < 2 ^ 31 - 1 then ahiLoop body hi (ii + 1) else [])
  else []
termination_by (2 ^ 31 - ii).toNat
decreasing_by
  omega

/-- The calls of `osdDrawArtificialHorizonShapes` between the outer push and the
pitch translation: the corner marks (draw mode only), the clip and clear of the
instrument rectangle, and the colours. -/
def ahiFrame (K : OsdConfig) (c : displayCanvas_t) (erase : Bool) : List CanvasCall :=
  let maxWidth : Int := (K.OSD_AHI_WIDTH + 1) * (c.gridElementWidth : Int)
  let maxHeight : Int := K.OSD_AHI_HEIGHT * (c.gridElementHeight : Int)
  let borderSize : Int := 3
  let lx : Int := Int.tdiv ((c.width : Int) - maxWidth) 2
  let ty : Int := Int.tdiv ((c.height : Int) - maxHeight) 2
  let rx : Int := lx + maxWidth
  let by_ : Int := ty + maxHeight
  (if !erase then
    [CanvasCall.setStrokeColor displayCanvasColor_e.DISPLAY_CANVAS_COLOR_BLACK,
     CanvasCall.moveToPoint lx (ty + borderSize),
     CanvasCall.strokeLineToPoint lx ty,
     CanvasCall.strokeLineToPoint (lx + borderSize) ty,
     CanvasCall.moveToPoint rx (ty + borderSize),
     CanvasCall.strokeLineToPoint rx ty,
     CanvasCall.strokeLineToPoint (rx - borderSize) ty,
     CanvasCall.moveToPoint lx (by_ - borderSize),
     CanvasCall.strokeLineToPoint lx by_,
     CanvasCall.strokeLineToPoint (lx + borderSize) by_,
     CanvasCall.moveToPoint rx (by_ - borderSize),
     CanvasCall.strokeLineToPoint rx by_,
     CanvasCall.strokeLineToPoint (rx - borderSize) by_]
  else []) ++
  [CanvasCall.clipToRect (lx + 1) (ty + 1) (maxWidth - 2) (maxHeight - 2),
   CanvasCall.gridBufferClearPixelRect lx ty maxWidth maxHeight] ++
  (if erase then
    [CanvasCall.setStrokeAndFillColor displayCanvasColor_e.DISPLAY_CANVAS_COLOR_TRANSPARENT,
     CanvasCall.setLineOutlineColor displayCanvasColor_e.DISPLAY_CANVAS_COLOR_TRANSPARENT]
  else
    [CanvasCall.setStrokeColor displayCanvasColor_e.DISPLAY_CANVAS_COLOR_WHITE,
     CanvasCall.setLineOutlineColor displayCanvasColor_e.DISPLAY_CANVAS_COLOR_BLACK])

/-- `osdDrawArtificialHorizonShapes(canvas, pitchAngle, rollAngle, erase)`. -/
def osdDrawArtificialHorizonShapes (K : OsdConfig) (canvas : Option displayCanvas_t)
    (pitchAngle rollAngle : ℚ) (erase : Bool) : Option (List CanvasCall) :=
  match canvas with
  | none => none
  | some c =>
    let barWidth : Int := (K.OSD_AHI_WIDTH - 1) * (c.gridElementWidth : Int)
    let levelBarWidth : Int := floatToInt K ((barWidth : ℚ) * (3 / 4))
    let pitchDegrees : ℚ := RADIANS_TO_DEGREES K pitchAngle
    let pitchCenter : ℚ := roundf (f32 (pitchDegrees / 10))
    let pitchOffset : ℚ := f32 (-pitchDegrees * pixelsPerDegreeLevel)
    let translateX : ℚ := intToFloat (Int.tdiv (c.width : Int) 2)
    let translateY : ℚ := intToFloat (Int.tdiv (c.height : Int) 2)
    let sx : ℚ := K.sin_approx (-rollAngle)
    let sy : ℚ := K.cos_approx rollAngle
    some (
      [CanvasCall.contextPush] ++
      ahiFrame K c erase ++
      [CanvasCall.ctmTranslate 0 pitchOffset,
       CanvasCall.contextPush,
       CanvasCall.ctmRotate (-rollAngle),
       CanvasCall.ctmTranslate translateX translateY] ++
      ahiLoop (ahiBarBody K barWidth levelBarWidth erase) (f32 (pitchCenter + 2))
        (floatToInt K (f32 (pitchCenter - 2))) ++
      [CanvasCall.contextPop,
       CanvasCall.ctmTranslate translateX translateY,
       CanvasCall.ctmScale (1 / 2) (1 / 2)] ++
      ahiLoop (ahiLabelBody K c pitchOffset sx sy erase) (f32 (pitchCenter + 2))
        (floatToInt K (f32 (pitchCenter - 2))) ++
      [CanvasCall.contextPop])

/-- The width of `timeMs_t` (`uint32_t`). -/
def timeMsModulus : Nat := 2 ^ 32

/-- The macro `AHI_MAX_DRAW_INTERVAL_MS`. -/
def AHI_MAX_DRAW_INTERVAL_MS : Nat := 1000

/-- The three `static` variables of `osdCanvasDrawArtificialHorizon`. -/
structure AhiState where
  prevPitchAngle : ℚ
  prevRollAngle : ℚ
  nextDrawMs : Nat
  deriving DecidableEq, Repr

/-- The initial values `9999`, `9999`, `0` of the three statics. -/
def AhiState.init : AhiState := ⟨9999, 9999, 0⟩

/-- The angular threshold of the artificial horizon, the `float` constant `0.01f`. -/
def ahiThreshold : ℚ := f32 (1 / 100)

/-- `osdCanvasDrawArtificialHorizon(display, canvas, p, pitchAngle, rollAngle)`;
`now` is the value that `millis()` returns. The angle tests are
`fabsf(prev - angle) > 0.01f`, on the `float` differences. -/
def osdCanvasDrawArtificialHorizon (K : OsdConfig) (st : AhiState)
    (canvas : Option displayCanvas_t) (pitchAngle rollAngle : ℚ) (now : Nat) :
    Option (AhiState × List CanvasCall) :=
  if |f32 (st.prevPitchAngle - pitchAngle)| > ahiThreshold ∨
      |f32 (st.prevRollAngle - rollAngle)| > ahiThreshold ∨ now > st.nextDrawMs then
    match osdDrawArtificialHorizonShapes K canvas st.prevPitchAngle st.prevRollAngle true with
    | none => none
    | some e =>
      match osdDrawArtificialHorizonShapes K canvas pitchAngle rollAngle false with
      | none => none
      | some d =>
        some (⟨pitchAngle, rollAngle, (now + AHI_MAX_DRAW_INTERVAL_MS) % timeMsModulus⟩, e ++ d)
  else
    some (st, [])

/-! ## Heading graph -/

/-- The table `static const uint8_t graph[]` of `osdCanvasDrawHeadingGraph`. -/
def graph : List osdChar :=
  [osdChar.SYM_HEADING_W, osdChar.SYM_HEADING_LINE, osdChar.SYM_HEADING_DIVIDED_LINE,
   osdChar.SYM_HEADING_LINE,
   osdChar.SYM_HEADING_N, osdChar.SYM_HEADING_LINE, osdChar.SYM_HEADING_DIVIDED_LINE,
   osdChar.SYM_HEADING_LINE,
   osdChar.SYM_HEADING_E, osdChar.SYM_HEADING_LINE, osdChar.SYM_HEADING_DIVIDED_LINE,
   osdChar.SYM_HEADING_LINE,
   osdChar.SYM_HEADING_S, osdChar.SYM_HEADING_LINE, osdChar.SYM_HEADING_DIVIDED_LINE,
   osdChar.SYM_HEADING_LINE,
   osdChar.SYM_HEADING_W, osdChar.SYM_HEADING_LINE, osdChar.SYM_HEADING_DIVIDED_LINE,
   osdChar.SYM_HEADING_LINE,
   osdChar.SYM_HEADING_N, osdChar.SYM_HEADING_LINE, osdChar.SYM_HEADING_DIVIDED_LINE,
   osdChar.SYM_HEADING_LINE,
   osdChar.SYM_HEADING_E, osdChar.SYM_HEADING_LINE]

/-- The condition of the `STATIC_ASSERT(sizeof(graph) > (3599 / D) + W + 1, graph_is_too_short)`. -/
def graphStaticAssert (K : OsdConfig) : Prop :=
  (graph.length : Int) >
    Int.tdiv 3599 K.OSD_HEADING_GRAPH_DECIDEGREES_PER_CHAR + (K.OSD_HEADING_GRAPH_WIDTH : Int) + 1

instance (K : OsdConfig) : Decidable (graphStaticAssert K) := by
  unfold graphStaticAssert
  infer_instance

/-- One read `table[i]` of an array through a signed index: no value outside the array. -/
def readAt (table : List osdChar) (i : Int) : Option osdChar :=
  if 0 ≤ i then table.get? i.toNat else none

/-- The `memcpy_fn(buf, graph + idx, n)`: the `n` reads `table[idx], ..., table[idx + n - 1]`,
lowest index first; no result when one of them is outside the table. -/
def memcpyFrom (table : List osdChar) (idx : Int) : Nat → Option (List osdChar)
  | 0 => some []
  | n + 1 =>
    match readAt table idx with
    | none => none
    | some ch =>
      match memcpyFrom table (idx + 1) n with
      | none => none
      | some rest => some (ch :: rest)

/-- `osdCanvasDrawHeadingGraph(display, canvas, p, heading)`; `px`, `py` are the
pixel coordinates that `osdDrawPointGetPixels` returns for `p`. -/
def osdCanvasDrawHeadingGraph (K : OsdConfig) (canvas : Option displayCanvas_t) (px py : Int)
    (heading : Int) : Option (List CanvasCall) :=
  match canvas with
  | none => none
  | some c =>
    let rw : Int := (K.OSD_HEADING_GRAPH_WIDTH : Int) * (c.gridElementWidth : Int)
    let rh : Int := (c.gridElementHeight : Int)
    let idx : Int := Int.tdiv heading K.OSD_HEADING_GRAPH_DECIDEGREES_PER_CHAR
    let offset : Int :=
      Int.tdiv (Int.tmod heading K.OSD_HEADING_GRAPH_DECIDEGREES_PER_CHAR * (c.gridElementWidth : Int))
        K.OSD_HEADING_GRAPH_DECIDEGREES_PER_CHAR
    match memcpyFrom graph idx K.OSD_HEADING_GRAPH_WIDTH with
    | none => none
    | some buf =>
      let rmx : Int := px + Int.tdiv rw 2
      some
        [CanvasCall.clipToRect px py rw rh,
         CanvasCall.drawString (px - offset + 1) py buf DISPLAY_CANVAS_BITMAP_OPT_ERASE_TRANSPARENT,
         CanvasCall.setStrokeColor displayCanvasColor_e.DISPLAY_CANVAS_COLOR_BLACK,
         CanvasCall.setFillColor displayCanvasColor_e.DISPLAY_CANVAS_COLOR_WHITE,
         CanvasCall.fillStrokeTriangle (rmx - 2) (py - 1) (rmx + 2) (py - 1) rmx (py + 1)]

/-! ## Call sequences -/

/-- The arguments of one call of `osdCanvasDrawArtificialHorizon`, with the clock it reads. -/
structure AhiInput where
  pitchAngle : ℚ
  rollAngle : ℚ
  now : Nat
  deriving DecidableEq, Repr

/-- The clock values of the calls of a sequence that draw (issue a primitive). -/
def ahiRedrawTimes (K : OsdConfig) (c : displayCanvas_t) :
    AhiState → List AhiInput → List Nat
  | _, [] => []
  | st, x :: xs =>
    match osdCanvasDrawArtificialHorizon K st (some c) x.pitchAngle x.rollAngle x.now with
    | none => []
    | some (st1, log) =>
      if log.isEmpty then ahiRedrawTimes K c st1 xs else x.now :: ahiRedrawTimes K c st1 xs

/-- Every call of the sequence has pitch and roll within the angular threshold of
the values cached (last drawn) when it is made. -/
def ahiNearCache (K : OsdConfig) (c : displayCanvas_t) : AhiState → List AhiInput → Prop
  | _, [] => True
  | st, x :: xs =>
    |st.prevPitchAngle - x.pitchAngle| ≤ 1 / 100 ∧ |st.prevRollAngle - x.rollAngle| ≤ 1 / 100 ∧
    match osdCanvasDrawArtificialHorizon K st (some c) x.pitchAngle x.rollAngle x.now with
    | none => True
    | some (st1, _) => ahiNearCache K c st1 xs

/-- Pitch and roll change by less than the angular threshold from each call to the next. -/
def ahiSmallSteps (xs : List AhiInput) : Prop :=
  List.Chain' (fun a b => |a.pitchAngle - b.pitchAngle| < 1 / 100 ∧
    |a.rollAngle - b.rollAngle| < 1 / 100) xs

/-- The clock values of a sequence of calls do not decrease. -/
def ahiClockMonotone (xs : List AhiInput) : Prop :=
  List.Chain' (fun a b => a.now ≤ b.now) xs

/-- A call with its colour masked out: a mask draw in some colour becomes the
plain draw of the same glyph at the same place. -/
def maskColor : CanvasCall → CanvasCall
  | CanvasCall.drawCharacterMask x y chr _ opts => CanvasCall.drawCharacter x y chr opts
  | CanvasCall.drawStringMask x y s _ opts => CanvasCall.drawString x y s opts
  | call => call

/-- The erase form of a draw call: a character is drawn as a mask in
`DISPLAY_CANVAS_COLOR_TRANSPARENT`. -/
def eraseForm : CanvasCall → CanvasCall
  | CanvasCall.drawCharacter x y chr opts =>
    CanvasCall.drawCharacterMask x y chr displayCanvasColor_e.DISPLAY_CANVAS_COLOR_TRANSPARENT opts
  | call => call

/-- The character draws of a log, as (x, y, glyph). -/
def characterDraws : List CanvasCall → List (Int × Int × osdChar)
  | [] => []
  | CanvasCall.drawCharacter x y chr _ :: rest => (x, y, chr) :: characterDraws rest
  | CanvasCall.drawCharacterMask x y chr _ _ :: rest => (x, y, chr) :: characterDraws rest
  | _ :: rest => characterDraws rest

/-- The clip rectangles of a log, as (x, y, w, h). -/
def clipRects : List CanvasCall → List (Int × Int × Int × Int)
  | [] => []
  | CanvasCall.clipToRect x y w h :: rest => (x, y, w, h) :: clipRects rest
  | _ :: rest => clipRects rest

/-! ## Graphics-state stack -/

/-- Modelled from the spec: the current transformation matrix, a 2D affine
transform of 6 coefficients named as the arguments of `ctmSet` in
`display_canvas.h`; the operations themselves are implemented by the canvas
backend. -/
structure Ctm where
  m11 : ℚ
  m12 : ℚ
  m21 : ℚ
  m22 : ℚ
  m31 : ℚ
  m32 : ℚ
  deriving DecidableEq, Repr

/-- Modelled from the spec: the transform that applies `a` first and `b` second. -/
def Ctm.compose (a b : Ctm) : Ctm where
  m11 := a.m11 * b.m11 + a.m12 * b.m21
  m12 := a.m11 * b.m12 + a.m12 * b.m22
  m21 := a.m21 * b.m11 + a.m22 * b.m21
  m22 := a.m21 * b.m12 + a.m22 * b.m22
  m31 := a.m31 * b.m11 + a.m32 * b.m21 + b.m31
  m32 := a.m31 * b.m12 + a.m32 * b.m22 + b.m32

/-- Modelled from the spec: `ctmReset()` sets the CTM to identity. -/
def ctmReset : Ctm := ⟨1, 0, 0, 1, 0, 0⟩

/-- Modelled from the spec: `ctmTranslate(tx, ty)` composes a translation onto the
existing CTM ("rotate around origin, then move origin to screen center" is the
call order rotate, translate). -/
def ctmTranslate (m : Ctm) (tx ty : ℚ) : Ctm := m.compose ⟨1, 0, 0, 1, tx, ty⟩

/-- Modelled from the spec: `ctmScale(sx, sy)` composes a scaling onto the existing CTM. -/
def ctmScale (m : Ctm) (sx sy : ℚ) : Ctm := m.compose ⟨sx, 0, 0, sy, 0, 0⟩

/-- Modelled from the spec: `ctmRotate(r)` composes a rotation by `r` radians onto
the existing CTM; `cosf` and `sinf` are the cosine and sine of the backend. -/
def ctmRotate (cosf sinf : ℚ → ℚ) (m : Ctm) (r : ℚ) : Ctm :=
  m.compose ⟨cosf r, sinf r, -sinf r, cosf r, 0, 0⟩

/-- Modelled from the spec: the pixel a local point is projected to through the CTM. -/
def Ctm.apply (m : Ctm) (p : ℚ × ℚ) : ℚ × ℚ :=
  (p.1 * m.m11 + p.2 * m.m21 + m.m31, p.1 * m.m12 + p.2 * m.m22 + m.m32)

/-- A cosine stand-in on the rationals that is exact at 0 and at the quarter turn `11 / 7`. -/
def sampleCos (r : ℚ) : ℚ := if r = 0 then 1 else 0

/-- A sine stand-in on the rationals that is exact at 0 and at the quarter turn `11 / 7`. -/
def sampleSin (r : ℚ) : ℚ := if r = 0 then 0 else 1

/-! ## Artificial-horizon level indices -/

/-- The integer that `pitchCenter = roundf(pitchDegrees / 10.0f)` holds, with
`pitchDegrees = RADIANS_TO_DEGREES(pitchAngle)`: the index of the ten-degree level
nearest the pitch as the code computes it, in `float`. -/
def pitchCenterIndex (K : OsdConfig) (pitchAngle : ℚ) : Int :=
  if 0 ≤ f32 (RADIANS_TO_DEGREES K pitchAngle / 10) then
    ⌊f32 (RADIANS_TO_DEGREES K pitchAngle / 10) + 1 / 2⌋
  else ⌈f32 (RADIANS_TO_DEGREES K pitchAngle / 10) - 1 / 2⌉

/-! ## Properties of call sequences -/

/-- The second of two successive calls with identical inputs issues no primitive
and leaves the render state as the first call left it. -/
def SecondCallSilent {σ : Type} (f : σ → Option (σ × List CanvasCall)) : Prop :=
  ∀ st : σ, ∃ (st1 : σ) (l1 : List CanvasCall), f st = some (st1, l1) ∧ f st1 = some (st1, [])

/-- The redraw condition of `osdCanvasDrawArtificialHorizon`. -/
def ahiDue (st : AhiState) (p r : ℚ) (now : Nat) : Prop :=
  |f32 (st.prevPitchAngle - p)| > ahiThreshold ∨ |f32 (st.prevRollAngle - r)| > ahiThreshold ∨
    now > st.nextDrawMs

instance (st : AhiState) (p r : ℚ) (now : Nat) : Decidable (ahiDue st p r now) := by
  unfold ahiDue
  infer_instance

/-- The statics of `osdCanvasDrawArtificialHorizon` after a call on a bound canvas. -/
def ahiNext (st : AhiState) (x : AhiInput) : AhiState :=
  if ahiDue st x.pitchAngle x.rollAngle x.now then
    ⟨x.pitchAngle, x.rollAngle, (x.now + AHI_MAX_DRAW_INTERVAL_MS) % timeMsModulus⟩
  else st

/-- The first call of a sequence that stays within 0.01 rad of the last drawn attitude. -/
def steadyFirst : AhiInput := ⟨0, 0, 0⟩

/-- The later calls of the steady sequence. -/
def steadyRest : List AhiInput := [⟨1 / 256, 0, 500⟩, ⟨1 / 128, 0, 1001⟩, ⟨0, 1 / 128, 2002⟩]

/-- The calls of a short sequence, one per millisecond, in which the pitch drifts
by `3 / 512` rad (about 0.006 rad) per call; every pitch is a `float`. -/
def driftCalls : List AhiInput :=
  [⟨0, 0, 0⟩, ⟨3 / 512, 0, 1⟩, ⟨6 / 512, 0, 2⟩, ⟨9 / 512, 0, 3⟩, ⟨12 / 512, 0, 4⟩]

/-! ## CTM calls of a log -/

/-- The scroll position of the heading strip in pixels: `idx * gridElementWidth + offset`
with `idx` and `offset` as `osdCanvasDrawHeadingGraph` computes them. -/
def headingScroll (K : OsdConfig) (gw : Int) (heading : Int) : Int :=
  Int.tdiv heading K.OSD_HEADING_GRAPH_DECIDEGREES_PER_CHAR * gw +
    Int.tdiv (Int.tmod heading K.OSD_HEADING_GRAPH_DECIDEGREES_PER_CHAR * gw)
      K.OSD_HEADING_GRAPH_DECIDEGREES_PER_CHAR

/-! ## VTX menu (`src/main/cms/cms_menu_vtx.c`) -/

/-- The struct `vtxCmsData_t`; the fields are `uint8_t`. -/
structure vtxCmsData_t where
  pitMode : Nat
  band : Nat
  channel : Nat
  powerIndex : Nat
  deriving DecidableEq, Repr

/-- The fields of the VTX settings that `vtxCmsSet` writes through
`vtxSettingsConfigMutable()`. -/
structure vtxSettingsConfig_t where
  band : Nat
  channel : Nat
  power : Nat
  freq : Nat
  deriving DecidableEq, Repr

/-- What a VTX device answers to the `vtxCommonGet...` calls of `vtxCmsOnEnter`;
`none` is the answer `false`. -/
structure VtxDeviceReport where
  capability : Option (Nat × Nat × Nat)
  pitMode : Option Nat
  bandAndChannel : Option (Nat × Nat)
  powerIndex : Option Nat
  deriving DecidableEq, Repr

/-- The file-scope statics of `cms_menu_vtx.c` that the menu callbacks read or
write, the `max` fields of the three tab entries, and the VTX settings. -/
structure VtxCmsState where
  vtxInitialData : vtxCmsData_t
  vtxData : vtxCmsData_t
  vtxCmsBand : Nat
  vtxCmsChan : Nat
  vtxCmsFreq : Nat
  vtxCmsPower : Nat
  vtxCmsEntBandMax : Nat
  vtxCmsEntChanMax : Nat
  vtxCmsEntPowerMax : Nat
  settings : vtxSettingsConfig_t
  deriving DecidableEq, Repr

/-- The statics at program start (zero-initialised) with the settings `cfg`. -/
def VtxCmsState.init (cfg : vtxSettingsConfig_t) : VtxCmsState where
  vtxInitialData := ⟨0, 0, 0, 0⟩
  vtxData := ⟨0, 0, 0, 0⟩
  vtxCmsBand := 0
  vtxCmsChan := 0
  vtxCmsFreq := 0
  vtxCmsPower := 0
  vtxCmsEntBandMax := 0
  vtxCmsEntChanMax := 0
  vtxCmsEntPowerMax := 0
  settings := cfg

/-- The return value `MENU_CHAIN_BACK` of `cms_types.h`. -/
def MENU_CHAIN_BACK : Int := -1

/-- `vtxCmsUpdateFreq()`; `bandchan2freq` is `vtx58_Bandchan2Freq`. -/
def vtxCmsUpdateFreq (bandchan2freq : Nat → Nat → Nat) (s : VtxCmsState) : VtxCmsState :=
  { s with vtxCmsFreq := bandchan2freq s.vtxData.band s.vtxData.channel }

/-- `vtxCmsSetPitMode(pDisp, self)`; the call of `vtxCommonSetPitMode` acts on the
device only. -/
def vtxCmsSetPitMode (s : VtxCmsState) : VtxCmsState × Int :=
  if s.vtxInitialData.pitMode = 0 then
    ({ s with vtxData := { s.vtxData with pitMode := 0 } }, 0)
  else if s.vtxData.pitMode = 0 then
    ({ s with vtxData := { s.vtxData with pitMode := 2 } }, 0)
  else (s, 0)

/-- `vtxCmsConfigBand(pDisp, self)`. -/
def vtxCmsConfigBand (bandchan2freq : Nat → Nat → Nat) (s : VtxCmsState) : VtxCmsState × Int :=
  if s.vtxInitialData.band = 0 then
    ({ s with vtxData := { s.vtxData with band := 0 } }, 0)
  else
    let s1 : VtxCmsState :=
      if s.vtxData.band = 0 then
        { s with vtxData := { s.vtxData with band := (s.vtxCmsEntBandMax + 255) % 256 } }
      else s
    (vtxCmsUpdateFreq bandchan2freq s1, 0)

/-- `vtxCmsConfigChan(pDisp, self)`. -/
def vtxCmsConfigChan (bandchan2freq : Nat → Nat → Nat) (s : VtxCmsState) : VtxCmsState × Int :=
  if s.vtxInitialData.channel = 0 then
    ({ s with vtxData := { s.vtxData with channel := 0 } }, 0)
  else
    let s1 : VtxCmsState :=
      if s.vtxData.channel = 0 then
        { s with vtxData := { s.vtxData with channel := (s.vtxCmsEntChanMax + 255) % 256 } }
      else s
    (vtxCmsUpdateFreq bandchan2freq s1, 0)

/-- `vtxCmsConfigPower(pDisp, self)`. -/
def vtxCmsConfigPower (s : VtxCmsState) : VtxCmsState × Int :=
  if s.vtxInitialData.powerIndex = 0 then
    ({ s with vtxData := { s.vtxData with powerIndex := 0 } }, 0)
  else if s.vtxData.powerIndex = 0 then
    ({ s with vtxData := { s.vtxData with powerIndex := (s.vtxCmsEntPowerMax + 255) % 256 } }, 0)
  else (s, 0)

/-- `vtxCmsSet(pDisp, self)`; `saveConfigAndNotify()` stores the settings written here. -/
def vtxCmsSet (bandchan2freq : Nat → Nat → Nat) (s : VtxCmsState) : VtxCmsState × Int :=
  ({ s with settings :=
      { band := s.vtxCmsBand
        channel := s.vtxCmsChan
        power := s.vtxCmsPower
        freq := bandchan2freq s.vtxCmsBand s.vtxCmsChan } },
    MENU_CHAIN_BACK)

/-- `vtxCmsOnEnter(from)`; `device` is what `vtxCommonDevice()` returns (`none` for
`NULL`). The `names` of the tab entries and `temperature.val` are left out. -/
def vtxCmsOnEnter (bandchan2freq : Nat → Nat → Nat) (device : Option VtxDeviceReport)
    (s : VtxCmsState) : VtxCmsState × Int :=
  let caps : Option (Nat × Nat × Nat) := device.bind (fun d => d.capability)
  let bandMax : Nat := match caps with
    | some (bandCount, _, _) => (bandCount + 1) % 256
    | none => 0
  let chanMax : Nat := match caps with
    | some (_, channelCount, _) => (channelCount + 1) % 256
    | none => 0
  let powerMax : Nat := match caps with
    | some (_, _, powerCount) => (powerCount + 1) % 256
    | none => 0
  let pit : Nat := match device.bind (fun d => d.pitMode) with
    | some pitMode => (pitMode + 1) % 256
    | none => 0
  let bc : Nat × Nat := match device.bind (fun d => d.bandAndChannel) with
    | some (band, channel) => (band, channel)
    | none => (0, 0)
  let pw : Nat := match device.bind (fun d => d.powerIndex) with
    | some powerIndex => (powerIndex + 1) % 256
    | none => 0
  let data : vtxCmsData_t := ⟨pit, bc.1, bc.2, pw⟩
  (vtxCmsUpdateFreq bandchan2freq
    { s with
      vtxCmsEntBandMax := bandMax
      vtxCmsEntChanMax := chanMax
      vtxCmsEntPowerMax := powerMax
      vtxInitialData := data
      vtxData := data }, 0)

/-- One operator edit of a tab entry of `vtxMenuEntries`, with the index the
operator selects. -/
inductive VtxMenuEdit
  | pit (v : Nat)
  | band (v : Nat)
  | chan (v : Nat)
  | power (v : Nat)
  deriving DecidableEq, Repr

/-- One operator edit: the menu framework (outside the sources at hand) stores the
selected index in the field of `vtxData` that the tab entry points to, then calls
the callback of the entry. -/
def vtxMenuApply (bandchan2freq : Nat → Nat → Nat) (s : VtxCmsState) :
    VtxMenuEdit → VtxCmsState
  | VtxMenuEdit.pit v =>
    (vtxCmsSetPitMode { s with vtxData := { s.vtxData with pitMode := v % 256 } }).1
  | VtxMenuEdit.band v =>
    (vtxCmsConfigBand bandchan2freq { s with vtxData := { s.vtxData with band := v % 256 } }).1
  | VtxMenuEdit.chan v =>
    (vtxCmsConfigChan bandchan2freq { s with vtxData := { s.vtxData with channel := v % 256 } }).1
  | VtxMenuEdit.power v =>
    (vtxCmsConfigPower { s with vtxData := { s.vtxData with powerIndex := v % 256 } }).1

/-- A menu session: `vtxCmsOnEnter`, the edits in order, then `vtxCmsSet`. -/
def vtxMenuSession (bandchan2freq : Nat → Nat → Nat) (device : Option VtxDeviceReport)
    (s : VtxCmsState) (edits : List VtxMenuEdit) : VtxCmsState × Int :=
  vtxCmsSet bandchan2freq
    (edits.foldl (vtxMenuApply bandchan2freq) (vtxCmsOnEnter bandchan2freq device s).1)

/-- A device with 5 bands, 8 channels and 3 power levels that reports pit mode
off, band 1, channel 1 and power index 0. -/
def sampleVtxDevice : VtxDeviceReport where
  capability := some (5, 8, 3)
  pitMode := some 0
  bandAndChannel := some (1, 1)
  powerIndex := some 0

/-- The operator selects band 3, channel 5 and power index 2. -/
def sampleVtxEdits : List VtxMenuEdit :=
  [VtxMenuEdit.band 3, VtxMenuEdit.chan 5, VtxMenuEdit.power 2]

/-! # Theorems -/

/-! ## Rounding to `float` -/

/-- Rounding to the nearest integer gives the floor or the next integer. -/
theorem roundHalfEven_bounds (q : ℚ) : ⌊q⌋ ≤ roundHalfEven q ∧ roundHalfEven q ≤ ⌊q⌋ + 1 := by
  unfold roundHalfEven
  split_ifs <;> omega

/-- An integer rounds to itself. -/
theorem roundHalfEven_intCast (n : Int) : roundHalfEven (n : ℚ) = n := by
  unfold roundHalfEven
  simp

/-- Rounding to the nearest integer is monotone. -/
theorem roundHalfEven_mono {p q : ℚ} (h : p ≤ q) : roundHalfEven p ≤ roundHalfEven q := by
  have hf : ⌊p⌋ ≤ ⌊q⌋ := Int.floor_mono h
  rcases lt_or_eq_of_le hf with hlt | heq
  · have h1 := (roundHalfEven_bounds p).2
    have h2 := (roundHalfEven_bounds q).1
    omega
  · unfold roundHalfEven
    rw [heq]
    have hpq : p - (⌊q⌋ : ℚ) ≤ q - (⌊q⌋ : ℚ) := by linarith
    split_ifs <;> first | omega | (exfalso; linarith)

/-- A non-negative number rounds to a non-negative integer. -/
theorem roundHalfEven_nonneg {q : ℚ} (h : 0 ≤ q) : 0 ≤ roundHalfEven q := by
  have := roundHalfEven_mono h
  rwa [show ((0 : ℚ)) = ((0 : Int) : ℚ) by simp, roundHalfEven_intCast] at this

/-- A number less than a half away from an integer rounds to it. -/
theorem roundHalfEven_eq_of_near (q : ℚ) (m : Int) (h1 : (m : ℚ) - 1 / 2 < q)
    (h2 : q < (m : ℚ) + 1 / 2) : roundHalfEven q = m := by
  unfold roundHalfEven
  by_cases hq : (m : ℚ) ≤ q
  · have hf : ⌊q⌋ = m := by
      rw [Int.floor_eq_iff]
      constructor
      · exact hq
      · linarith
    rw [hf]
    have : q - (m : ℚ) < 1 / 2 := by linarith
    rw [if_pos this]
  · have hq' : q < (m : ℚ) := not_le.mp hq
    have hf : ⌊q⌋ = m - 1 := by
      rw [Int.floor_eq_iff]
      push_cast
      constructor <;> linarith
    rw [hf]
    have h3 : ¬ (q - (((m - 1 : Int)) : ℚ) < 1 / 2) := by push_cast; linarith
    have h4 : 1 / 2 < q - (((m - 1 : Int)) : ℚ) := by push_cast; linarith
    rw [if_neg h3, if_pos h4]
    ring

/-- A half-way number rounds to its even neighbour. -/
theorem roundHalfEven_tie (n : Int) :
    roundHalfEven ((n : ℚ) + 1 / 2) = if n % 2 = 0 then n else n + 1 := by
  have hf : ⌊(n : ℚ) + 1 / 2⌋ = n := by
    rw [Int.floor_eq_iff]
    constructor <;> linarith
  unfold roundHalfEven
  rw [hf]
  simp


/-- The unit in the last place does not depend on the sign. -/
theorem floatUlpExp_neg (x : ℚ) : floatUlpExp (-x) = floatUlpExp x := by
  unfold floatUlpExp
  rw [abs_neg]

/-- The unit in the last place is positive. -/
theorem floatUlp_pos (x : ℚ) : (0 : ℚ) < 2 ^ floatUlpExp x := zpow_pos (by norm_num) _

/-- Rounding of a non-negative number, unfolded. -/
theorem f32_of_nonneg {x : ℚ} (h : 0 ≤ x) :
    f32 x = ((roundHalfEven (x / 2 ^ floatUlpExp x) : Int) : ℚ) * 2 ^ floatUlpExp x := by
  unfold f32
  rw [if_pos h]

/-- Zero is a `float`. -/
theorem f32_zero : f32 0 = 0 := by
  rw [f32_of_nonneg (le_refl 0)]
  simp [roundHalfEven]

/-- Rounding to `float` commutes with negation. -/
theorem f32_neg (x : ℚ) : f32 (-x) = -f32 x := by
  rcases lt_trichotomy x 0 with h | h | h
  · have h1 : 0 ≤ -x := by linarith
    have h2 : ¬ 0 ≤ x := not_le.mpr h
    rw [f32_of_nonneg h1, floatUlpExp_neg]
    unfold f32
    rw [if_neg h2]
    ring
  · subst h
    simp [f32_zero]
  · have h1 : ¬ 0 ≤ -x := by linarith
    have h2 : 0 ≤ x := le_of_lt h
    rw [f32_of_nonneg h2]
    unfold f32
    rw [if_neg h1, floatUlpExp_neg, neg_neg]

/-- A non-negative number rounds to a non-negative `float`. -/
theorem f32_nonneg {x : ℚ} (h : 0 ≤ x) : 0 ≤ f32 x := by
  rw [f32_of_nonneg h]
  have h1 : 0 ≤ roundHalfEven (x / 2 ^ floatUlpExp x) :=
    roundHalfEven_nonneg (div_nonneg h (le_of_lt (floatUlp_pos x)))
  have h2 : (0 : ℚ) ≤ ((roundHalfEven (x / 2 ^ floatUlpExp x) : Int) : ℚ) := by exact_mod_cast h1
  exact mul_nonneg h2 (le_of_lt (floatUlp_pos x))

/-- Rounding to `float` commutes with the absolute value. -/
theorem f32_abs (x : ℚ) : |f32 x| = f32 |x| := by
  rcases le_total 0 x with h | h
  · rw [abs_of_nonneg h, abs_of_nonneg (f32_nonneg h)]
  · have h1 : 0 ≤ -x := by linarith
    have h2 : f32 x ≤ 0 := by
      have := f32_nonneg h1
      rw [f32_neg] at this
      linarith
    rw [abs_of_nonpos h, abs_of_nonpos h2, f32_neg]

/-- A positive `x` with `2 ^ e <= x < 2 ^ (e + 1)` and `e >= -126` rounds with the unit
`2 ^ (e - 23)`. -/
theorem floatUlpExp_of_bounds {x : ℚ} {e : Int} (h0 : 0 < x) (h1 : (2 : ℚ) ^ e ≤ x)
    (h2 : x < (2 : ℚ) ^ (e + 1)) (he : -126 ≤ e) : floatUlpExp x = e - 23 := by
  have hb : 1 < 2 := by norm_num
  have hlog : Int.log 2 x = e := by
    have ha : e ≤ Int.log 2 x := (Int.zpow_le_iff_le_log hb h0).mp (by exact_mod_cast h1)
    have hc : Int.log 2 x < e + 1 := (Int.lt_zpow_iff_log_lt hb h0).mp (by exact_mod_cast h2)
    omega
  unfold floatUlpExp
  rw [abs_of_pos h0, hlog, max_eq_left he]

/-- The `float` nearest to a positive number, from its binade and its rounded significand. -/
theorem f32_eval {x : ℚ} {e n : Int} (h0 : 0 < x) (h1 : (2 : ℚ) ^ e ≤ x)
    (h2 : x < (2 : ℚ) ^ (e + 1)) (he : -126 ≤ e)
    (hn : roundHalfEven (x / 2 ^ (e - 23)) = n) : f32 x = (n : ℚ) * 2 ^ (e - 23) := by
  rw [f32_of_nonneg (le_of_lt h0), floatUlpExp_of_bounds h0 h1 h2 he, hn]

/-- Upper bound of the rounded value of a positive number by the next power of two. -/
theorem f32_le_pow {x : ℚ} (h0 : 0 < x) :
    f32 x ≤ 2 ^ (max (Int.log 2 x) (-126) + 1) := by
  have hb : 1 < 2 := by norm_num
  have hu : floatUlpExp x = max (Int.log 2 x) (-126) - 23 := by
    unfold floatUlpExp; rw [abs_of_pos h0]
  have hx : x < (2 : ℚ) ^ (max (Int.log 2 x) (-126) + 1) := by
    have h1 : x < ((2 : ℕ) : ℚ) ^ (Int.log 2 x + 1) := Int.lt_zpow_succ_log_self hb x
    have h2 : ((2 : ℕ) : ℚ) ^ (Int.log 2 x + 1) ≤ (2 : ℚ) ^ (max (Int.log 2 x) (-126) + 1) := by
      push_cast
      exact zpow_le_zpow_right₀ (by norm_num) (by have := le_max_left (Int.log 2 x) (-126); omega)
    exact lt_of_lt_of_le h1 h2
  rw [f32_of_nonneg (le_of_lt h0), hu]
  set E := max (Int.log 2 x) (-126) with hE
  have hupos : (0 : ℚ) < 2 ^ (E - 23) := zpow_pos (by norm_num) _
  have hq : x / 2 ^ (E - 23) ≤ (((2 ^ 24 : Int)) : ℚ) := by
    rw [div_le_iff₀ hupos]
    have : (((2 ^ 24 : Int)) : ℚ) * 2 ^ (E - 23) = 2 ^ (E + 1) := by
      push_cast
      rw [show E + 1 = 24 + (E - 23) by ring, zpow_add₀ (by norm_num : (2 : ℚ) ≠ 0)]
      norm_num
    rw [this]
    exact le_of_lt hx
  have hr := roundHalfEven_mono hq
  rw [roundHalfEven_intCast] at hr
  have hr' : ((roundHalfEven (x / 2 ^ (E - 23)) : Int) : ℚ) ≤ (((2 ^ 24 : Int)) : ℚ) := by
    exact_mod_cast hr
  calc ((roundHalfEven (x / 2 ^ (E - 23)) : Int) : ℚ) * 2 ^ (E - 23)
      ≤ (((2 ^ 24 : Int)) : ℚ) * 2 ^ (E - 23) := mul_le_mul_of_nonneg_right hr' (le_of_lt hupos)
    _ = 2 ^ (E + 1) := by
      push_cast
      rw [show E + 1 = 24 + (E - 23) by ring, zpow_add₀ (by norm_num : (2 : ℚ) ≠ 0)]
      norm_num

/-- Lower bound of the rounded value of a positive normal number by its power of two. -/
theorem pow_le_f32 {x : ℚ} (h0 : 0 < x) (hn : -126 ≤ Int.log 2 x) :
    (2 : ℚ) ^ (Int.log 2 x) ≤ f32 x := by
  have hb : 1 < 2 := by norm_num
  have hu : floatUlpExp x = Int.log 2 x - 23 := by
    unfold floatUlpExp; rw [abs_of_pos h0, max_eq_left hn]
  have hx : (2 : ℚ) ^ (Int.log 2 x) ≤ x := by
    have := Int.zpow_log_le_self hb h0
    exact_mod_cast this
  rw [f32_of_nonneg (le_of_lt h0), hu]
  set E := Int.log 2 x with hE
  have hupos : (0 : ℚ) < 2 ^ (E - 23) := zpow_pos (by norm_num) _
  have hmul : (((2 ^ 23 : Int)) : ℚ) * 2 ^ (E - 23) = 2 ^ E := by
    push_cast
    rw [show E = 23 + (E - 23) by ring, zpow_add₀ (by norm_num : (2 : ℚ) ≠ 0)]
    norm_num
  have hq : (((2 ^ 23 : Int)) : ℚ) ≤ x / 2 ^ (E - 23) := by
    rw [le_div_iff₀ hupos, hmul]
    exact hx
  have hr := roundHalfEven_mono hq
  rw [roundHalfEven_intCast] at hr
  have hr' : (((2 ^ 23 : Int)) : ℚ) ≤ ((roundHalfEven (x / 2 ^ (E - 23)) : Int) : ℚ) := by
    exact_mod_cast hr
  calc (2 : ℚ) ^ E = (((2 ^ 23 : Int)) : ℚ) * 2 ^ (E - 23) := hmul.symm
    _ ≤ ((roundHalfEven (x / 2 ^ (E - 23)) : Int) : ℚ) * 2 ^ (E - 23) :=
      mul_le_mul_of_nonneg_right hr' (le_of_lt hupos)

/-- Rounding to `float` is monotone on the positive numbers. -/
theorem f32_mono_pos {x y : ℚ} (hx : 0 < x) (hxy : x ≤ y) : f32 x ≤ f32 y := by
  have hy : 0 < y := lt_of_lt_of_le hx hxy
  have hlog : Int.log 2 x ≤ Int.log 2 y := Int.log_mono_right hx hxy
  have hux : floatUlpExp x = max (Int.log 2 x) (-126) - 23 := by
    unfold floatUlpExp; rw [abs_of_pos hx]
  have huy : floatUlpExp y = max (Int.log 2 y) (-126) - 23 := by
    unfold floatUlpExp; rw [abs_of_pos hy]
  rcases lt_or_eq_of_le (max_le_max hlog (le_refl (-126 : Int))) with hlt | heq
  · have hylog : max (Int.log 2 y) (-126) = Int.log 2 y := by
      rcases le_total (Int.log 2 y) (-126) with h | h
      · exfalso
        rw [max_eq_right h] at hlt
        have := le_max_right (Int.log 2 x) (-126)
        omega
      · exact max_eq_left h
    have hyn : -126 ≤ Int.log 2 y := by
      have := le_max_right (Int.log 2 y) (-126)
      omega
    have h1 := f32_le_pow hx
    have h2 := pow_le_f32 hy hyn
    have h3 : (2 : ℚ) ^ (max (Int.log 2 x) (-126) + 1) ≤ 2 ^ (Int.log 2 y) :=
      zpow_le_zpow_right₀ (by norm_num) (by omega)
    linarith
  · rw [f32_of_nonneg (le_of_lt hx), f32_of_nonneg (le_of_lt hy), hux, huy, heq]
    have hupos : (0 : ℚ) < 2 ^ (max (Int.log 2 y) (-126) - 23) := zpow_pos (by norm_num) _
    have hq : x / 2 ^ (max (Int.log 2 y) (-126) - 23) ≤ y / 2 ^ (max (Int.log 2 y) (-126) - 23) :=
      div_le_div_of_nonneg_right hxy (le_of_lt hupos)
    have hr := roundHalfEven_mono hq
    have hr' : ((roundHalfEven (x / 2 ^ (max (Int.log 2 y) (-126) - 23)) : Int) : ℚ) ≤
        ((roundHalfEven (y / 2 ^ (max (Int.log 2 y) (-126) - 23)) : Int) : ℚ) := by
      exact_mod_cast hr
    exact mul_le_mul_of_nonneg_right hr' (le_of_lt hupos)

/-- Rounding to `float` is monotone. -/
theorem f32_mono {x y : ℚ} (hxy : x ≤ y) : f32 x ≤ f32 y := by
  rcases lt_trichotomy 0 x with hx | hx | hx
  · exact f32_mono_pos hx hxy
  · subst hx
    rw [f32_zero]
    exact f32_nonneg hxy
  · rcases lt_or_le y 0 with hy | hy
    · have h := f32_mono_pos (x := -y) (y := -x) (by linarith) (by linarith)
      rw [f32_neg, f32_neg] at h
      linarith
    · have h1 := f32_nonneg hy
      have h2 := f32_nonneg (x := -x) (by linarith)
      rw [f32_neg] at h2
      linarith

/-- A number `m * 2 ^ k` with less than 24 bits of significand and `k >= -149` is a
`float`: rounding leaves it as it is. -/
theorem f32_exact (m k : Int) (hm : |m| < 2 ^ 24) (hk : -149 ≤ k) :
    f32 ((m : ℚ) * 2 ^ k) = (m : ℚ) * 2 ^ k := by
  have hb : 1 < 2 := by norm_num
  have key : ∀ n : Int, 0 < n → n < 2 ^ 24 → f32 ((n : ℚ) * 2 ^ k) = (n : ℚ) * 2 ^ k := by
    intro n hn0 hn
    have hkpos : (0 : ℚ) < 2 ^ k := zpow_pos (by norm_num) _
    have hnq : (0 : ℚ) < (n : ℚ) := by exact_mod_cast hn0
    have hx : (0 : ℚ) < (n : ℚ) * 2 ^ k := mul_pos hnq hkpos
    have hlt : (n : ℚ) * 2 ^ k < ((2 : ℕ) : ℚ) ^ (k + 24) := by
      push_cast
      rw [show k + 24 = 24 + k by ring, zpow_add₀ (by norm_num : (2 : ℚ) ≠ 0)]
      have : (n : ℚ) < 2 ^ (24 : Int) := by
        have h24 : (n : ℚ) < (((2 ^ 24 : Int)) : ℚ) := by exact_mod_cast hn
        have e24 : (((2 ^ 24 : Int)) : ℚ) = (2 : ℚ) ^ (24 : Int) := by norm_num
        rw [e24] at h24
        exact h24
      exact mul_lt_mul_of_pos_right this hkpos
    have hlog : Int.log 2 ((n : ℚ) * 2 ^ k) < k + 24 := (Int.lt_zpow_iff_log_lt hb hx).mp hlt
    have ht : floatUlpExp ((n : ℚ) * 2 ^ k) ≤ k := by
      unfold floatUlpExp
      rw [abs_of_pos hx]
      rcases le_total (Int.log 2 ((n : ℚ) * 2 ^ k)) (-126) with h | h
      · rw [max_eq_right h]; omega
      · rw [max_eq_left h]; omega
    rw [f32_of_nonneg (le_of_lt hx)]
    set t := floatUlpExp ((n : ℚ) * 2 ^ k) with htdef
    obtain ⟨d, hd⟩ : ∃ d : ℕ, k = t + d := ⟨(k - t).toNat, by omega⟩
    have hq : (n : ℚ) * 2 ^ k / 2 ^ t = (((n * 2 ^ d : Int)) : ℚ) := by
      rw [hd, zpow_add₀ (by norm_num : (2 : ℚ) ≠ 0), zpow_natCast]
      have htpos : (0 : ℚ) < 2 ^ t := zpow_pos (by norm_num) _
      field_simp
      ring
    rw [hq, roundHalfEven_intCast, hd, zpow_add₀ (by norm_num : (2 : ℚ) ≠ 0), zpow_natCast]
    push_cast
    ring
  rcases lt_trichotomy 0 m with h | h | h
  · exact key m h (by have := le_abs_self m; omega)
  · subst h
    simp [f32_zero]
  · have h1 := key (-m) (by omega) (by have := neg_le_abs m; omega)
    have h2 : (((-m : Int)) : ℚ) * 2 ^ k = -((m : ℚ) * 2 ^ k) := by push_cast; ring
    rw [h2, f32_neg] at h1
    linarith

/-- An integer of magnitude at most `2 ^ 24` is a `float`. -/
theorem f32_intCast (n : Int) (hn : |n| ≤ 2 ^ 24) : f32 (n : ℚ) = n := by
  rcases lt_or_eq_of_le hn with h | h
  · have := f32_exact n 0 h (by norm_num)
    simpa using this
  · have hcases : n = 2 ^ 24 ∨ n = -2 ^ 24 := by
      rcases abs_cases n with ⟨h1, _⟩ | ⟨h1, _⟩ <;> [left; right] <;> omega
    have h23 := f32_exact (2 ^ 23) 1 (by norm_num) (by norm_num)
    have e : (((2 ^ 23 : Int)) : ℚ) * 2 ^ (1 : Int) = (((2 ^ 24 : Int)) : ℚ) := by norm_num
    rw [e] at h23
    rcases hcases with h1 | h1
    · rw [h1]; exact h23
    · rw [h1]
      have : (((-2 ^ 24 : Int)) : ℚ) = -(((2 ^ 24 : Int)) : ℚ) := by push_cast; ring
      rw [this, f32_neg, h23]

/-- A number of magnitude at most `t` rounds to a `float` of magnitude at most the rounded `t`. -/
theorem f32_abs_le {d t : ℚ} (h : |d| ≤ t) : |f32 d| ≤ f32 t := by
  rw [f32_abs]
  exact f32_mono h

/-- The `float` nearest to a `float` is that `float`. -/
theorem f32_idem (x : ℚ) : f32 (f32 x) = f32 x := by
  have key : ∀ y : ℚ, 0 ≤ y → f32 (f32 y) = f32 y := by
    intro y hy
    have hu : -149 ≤ floatUlpExp y := by
      unfold floatUlpExp
      have := le_max_right (Int.log 2 |y|) (-126)
      omega
    rw [f32_of_nonneg hy]
    set n := roundHalfEven (y / 2 ^ floatUlpExp y) with hn
    have hn0 : 0 ≤ n := roundHalfEven_nonneg (div_nonneg hy (le_of_lt (floatUlp_pos y)))
    have hle : n ≤ 2 ^ 24 := by
      rcases eq_or_lt_of_le hy with h0 | hpos
      · have : y / 2 ^ floatUlpExp y = ((0 : Int) : ℚ) := by rw [← h0]; simp
        rw [hn, this, roundHalfEven_intCast]
        norm_num
      · have hup := f32_le_pow hpos
        rw [f32_of_nonneg hy] at hup
        have hu2 : floatUlpExp y = max (Int.log 2 y) (-126) - 23 := by
          unfold floatUlpExp; rw [abs_of_pos hpos]
        have hupos : (0 : ℚ) < 2 ^ floatUlpExp y := floatUlp_pos y
        have e : (2 : ℚ) ^ (max (Int.log 2 y) (-126) + 1) = 2 ^ (24 : Int) * 2 ^ floatUlpExp y := by
          rw [hu2, ← zpow_add₀ (by norm_num : (2 : ℚ) ≠ 0)]
          congr 1
          ring
        rw [e] at hup
        have h3 : (n : ℚ) ≤ 2 ^ (24 : Int) := le_of_mul_le_mul_right hup hupos
        have h4 : (n : ℚ) ≤ (((2 ^ 24 : Int)) : ℚ) := by
          have e24 : (((2 ^ 24 : Int)) : ℚ) = (2 : ℚ) ^ (24 : Int) := by norm_num
          rw [e24]; exact h3
        exact_mod_cast h4
    rcases lt_or_eq_of_le hle with hlt | heq
    · exact f32_exact n (floatUlpExp y) (by rw [abs_of_nonneg hn0]; exact hlt) hu
    · have h23 := f32_exact (2 ^ 23) (floatUlpExp y + 1) (by norm_num) (by omega)
      have e : (n : ℚ) * 2 ^ floatUlpExp y = (((2 ^ 23 : Int)) : ℚ) * 2 ^ (floatUlpExp y + 1) := by
        rw [heq, zpow_add₀ (by norm_num : (2 : ℚ) ≠ 0)]
        push_cast
        ring
      rw [e]
      exact h23
  rcases le_total 0 x with h | h
  · exact key x h
  · have := key (-x) (by linarith)
    rw [f32_neg, f32_neg] at this
    linarith

/-- The `float` nearest to a positive number, from its binade and its rounded significand. -/
theorem f32_value {x y : ℚ} (e n : Int) (h1 : (2 : ℚ) ^ e ≤ x) (h2 : x < (2 : ℚ) ^ (e + 1))
    (he : -126 ≤ e) (hn : roundHalfEven (x / 2 ^ (e - 23)) = n)
    (hy : (n : ℚ) * 2 ^ (e - 23) = y) : f32 x = y := by
  have h0 : 0 < x := lt_of_lt_of_le (zpow_pos (by norm_num) e) h1
  rw [f32_eval h0 h1 h2 he hn, hy]

/-- A number between two `float`s rounds to a `float` between them. -/
theorem f32_between {a x b : ℚ} (ha : f32 a = a) (hb : f32 b = b) (h1 : a ≤ x) (h2 : x ≤ b) :
    a ≤ f32 x ∧ f32 x ≤ b := by
  constructor
  · rw [← ha]; exact f32_mono h1
  · rw [← hb]; exact f32_mono h2

/-- An `int` of magnitude at most `2 ^ 24` converts to `float` without rounding. -/
theorem intToFloat_exact (n : Int) (hn : |n| ≤ 2 ^ 24) : intToFloat n = n :=
  f32_intCast n hn

/-- Truncating an integer gives that integer. -/
theorem truncf_intCast (n : Int) : truncf (n : ℚ) = n := by
  unfold truncf
  split <;> simp

/-- Truncation toward zero is monotone. -/
theorem truncf_mono {p q : ℚ} (h : p ≤ q) : truncf p ≤ truncf q := by
  unfold truncf
  split_ifs with hp hq hq
  · exact Int.floor_mono h
  · exact absurd (le_trans hp h) hq
  · have h1 : ⌈p⌉ ≤ 0 := Int.ceil_le.mpr (by push_cast; linarith)
    have h2 : 0 ≤ ⌊q⌋ := Int.floor_nonneg.mpr hq
    omega
  · exact Int.ceil_mono h

/-- An `int` result inside the range is not changed by wrapping. -/
theorem wrapInt_of_range (n : Int) (h1 : -2 ^ 31 ≤ n) (h2 : n < 2 ^ 31) : wrapInt n = n := by
  unfold wrapInt
  omega

/-- A wrapped result is in the range of `int`. -/
theorem wrapInt_range (n : Int) : -2 ^ 31 ≤ wrapInt n ∧ wrapInt n ≤ 2 ^ 31 - 1 := by
  unfold wrapInt
  omega

/-- The result of a conversion to `int` is in the range of `int`, whatever the processor
does out of range. -/
theorem floatToInt_range (K : OsdConfig) (q : ℚ) :
    -2 ^ 31 ≤ floatToInt K q ∧ floatToInt K q ≤ 2 ^ 31 - 1 := by
  unfold floatToInt
  split_ifs with h
  · exact h
  · exact wrapInt_range _

/-- Between two integers of the range of `int`, a conversion to `int` truncates toward zero and
stays between them, whatever the processor does out of range. -/
theorem floatToInt_between (K : OsdConfig) {a b : Int} {q : ℚ} (ha : -2 ^ 31 ≤ a)
    (hb : b ≤ 2 ^ 31 - 1) (h1 : (a : ℚ) ≤ q) (h2 : q ≤ (b : ℚ)) :
    floatToInt K q = truncf q ∧ a ≤ floatToInt K q ∧ floatToInt K q ≤ b := by
  have t1 : a ≤ truncf q := by
    have := truncf_mono h1
    rwa [truncf_intCast] at this
  have t2 : truncf q ≤ b := by
    have := truncf_mono h2
    rwa [truncf_intCast] at this
  have e : floatToInt K q = truncf q := by
    unfold floatToInt
    rw [if_pos ⟨by omega, by omega⟩]
  rw [e]
  exact ⟨rfl, t1, t2⟩

/-- Converting an integral `float` inside the range of `int` gives that integer. -/
theorem floatToInt_intCast (K : OsdConfig) (n : Int) (h1 : -2 ^ 31 ≤ n) (h2 : n ≤ 2 ^ 31 - 1) :
    floatToInt K (n : ℚ) = n := by
  have h := (floatToInt_between K h1 h2 (le_refl (n : ℚ)) (le_refl (n : ℚ))).1
  rw [h, truncf_intCast]

/-- The `float` that `roundf` returns for the pitch is the integer `pitchCenterIndex`. -/
theorem roundf_eq_index (K : OsdConfig) (pitchAngle : ℚ) :
    roundf (f32 (RADIANS_TO_DEGREES K pitchAngle / 10)) =
      ((pitchCenterIndex K pitchAngle : Int) : ℚ) := by
  unfold roundf pitchCenterIndex
  rfl

/-! ## Single calls -/

/-- On a bound canvas the vario shape routine returns a non-empty log. -/
theorem varioShape_bound (K : OsdConfig) (c : displayCanvas_t) (ex ey : Nat) (v : ℚ)
    (erase : Bool) :
    ∃ l, osdCanvasDrawVarioShape K (some c) ex ey v erase = some l ∧ l ≠ [] :=
  ⟨_, rfl, by simp⟩

/-- On a bound canvas the horizon shape routine returns a log that starts with a push. -/
theorem ahiShapes_bound (K : OsdConfig) (c : displayCanvas_t) (p r : ℚ) (erase : Bool) :
    ∃ l, osdDrawArtificialHorizonShapes K (some c) p r erase =
      some (CanvasCall.contextPush :: l) :=
  ⟨_, rfl⟩

/-- One call of `osdCanvasDrawVario` on a bound canvas: inside the deadband nothing,
otherwise erase then draw. -/
theorem vario_step (K : OsdConfig) (c : displayCanvas_t) (st : VarioState) (ex ey : Nat)
    (zvel : ℚ) :
    (|f32 (st.prev - zvel)| < varioDeadband K ∧
      osdCanvasDrawVario K st (some c) ex ey zvel = some (st, [])) ∨
    (¬ |f32 (st.prev - zvel)| < varioDeadband K ∧
      ∃ e d : List CanvasCall,
        osdCanvasDrawVarioShape K (some c) ex ey st.prev true = some e ∧
        osdCanvasDrawVarioShape K (some c) ex ey zvel false = some d ∧
        e ++ d ≠ [] ∧
        osdCanvasDrawVario K st (some c) ex ey zvel = some (⟨zvel⟩, e ++ d)) := by
  by_cases h : |f32 (st.prev - zvel)| < varioDeadband K
  · exact Or.inl ⟨h, by simp [osdCanvasDrawVario, h]⟩
  · obtain ⟨e, he, hne⟩ := varioShape_bound K c ex ey st.prev true
    obtain ⟨d, hd, _⟩ := varioShape_bound K c ex ey zvel false
    refine Or.inr ⟨h, e, d, he, hd, ?_, ?_⟩
    · simp [hne]
    · simp only [osdCanvasDrawVario, if_neg h, he, hd]

/-- One call of `osdCanvasDrawArtificialHorizon` on a bound canvas: nothing when no redraw
is due, otherwise erase then draw. -/
theorem ahi_step (K : OsdConfig) (c : displayCanvas_t) (st : AhiState) (p r : ℚ) (now : Nat) :
    (¬ ahiDue st p r now ∧ osdCanvasDrawArtificialHorizon K st (some c) p r now = some (st, [])) ∨
    (ahiDue st p r now ∧
      ∃ e d : List CanvasCall,
        osdDrawArtificialHorizonShapes K (some c) st.prevPitchAngle st.prevRollAngle true
          = some e ∧
        osdDrawArtificialHorizonShapes K (some c) p r false = some d ∧
        e ++ d ≠ [] ∧
        osdCanvasDrawArtificialHorizon K st (some c) p r now =
          some (⟨p, r, (now + AHI_MAX_DRAW_INTERVAL_MS) % timeMsModulus⟩, e ++ d)) := by
  by_cases h : ahiDue st p r now
  · obtain ⟨e, he⟩ := ahiShapes_bound K c st.prevPitchAngle st.prevRollAngle true
    obtain ⟨d, hd⟩ := ahiShapes_bound K c p r false
    refine Or.inr ⟨h, _, _, he, hd, by simp, ?_⟩
    unfold ahiDue at h
    simp only [osdCanvasDrawArtificialHorizon, if_pos h, he, hd]
  · refine Or.inl ⟨h, ?_⟩
    unfold ahiDue at h
    simp only [osdCanvasDrawArtificialHorizon, if_neg h]

/-- The deadband of the vario is a `float`. -/
theorem varioDeadband_float (K : OsdConfig) : f32 (varioDeadband K) = varioDeadband K :=
  f32_idem _

/-- At the upstream scale 50 the deadband of the vario is 2.5. -/
theorem varioDeadband_upstream : varioDeadband upstreamConfig = 5 / 2 := by
  decide!

/-- The value of the constant `0.01f`. -/
theorem ahiThreshold_value : ahiThreshold = 5368709 / 2 ^ 29 := by
  decide!

/-! ## C1: vario deadband -/

/-- C1 as stated fails. The cached velocity `2.6f = 5452595 / 2 ^ 21` and the new velocity
`0.1f = 13421773 / 2 ^ 27` are `float`s whose difference, 2.4999999, is below the
deadband 2.5 of the upstream scale 50; the `float` difference that the code tests is 2.5
exactly, so the call on the sample canvas is not a no-op: it issues 8 canvas calls and
overwrites `prev` with the new velocity. -/
theorem vario_deadband_rounding_redraws :
    f32 (5452595 / 2 ^ 21) = 5452595 / 2 ^ 21 ∧ f32 (13421773 / 2 ^ 27) = 13421773 / 2 ^ 27 ∧
    |(VarioState.mk (5452595 / 2 ^ 21)).prev - 13421773 / 2 ^ 27| <
      (upstreamConfig.OSD_VARIO_CM_S_PER_ARROW : ℚ) / 20 ∧
    f32 ((VarioState.mk (5452595 / 2 ^ 21)).prev - 13421773 / 2 ^ 27) = 5 / 2 ∧
    osdCanvasDrawVario upstreamConfig ⟨5452595 / 2 ^ 21⟩ (some sampleCanvas) 3 4
      (13421773 / 2 ^ 27) ≠ some (⟨5452595 / 2 ^ 21⟩, []) ∧
    (osdCanvasDrawVario upstreamConfig ⟨5452595 / 2 ^ 21⟩ (some sampleCanvas) 3 4
      (13421773 / 2 ^ 27)).map (fun r => (r.1.prev, r.2.length)) =
        some (13421773 / 2 ^ 27, 8) := by
  refine ⟨by decide!, by decide!, by decide!, by decide!, by decide!, by decide!⟩

/-- C1 as amended. Vario deadband in `float` arithmetic: whatever the cached velocity
`st.prev` and the canvas, a call of `osdCanvasDrawVario` issues no canvas call and returns
the state unchanged exactly when the `float` nearest to `st.prev - zvel` has a magnitude
below the deadband, the `float` value of `OSD_VARIO_CM_S_PER_ARROW / 20.0f`. This is so
whenever `|st.prev - zvel|` is at most some `float` below the deadband, and is not so
when `|st.prev - zvel|` is at least the deadband; a difference in between may round up to
the deadband. -/
theorem vario_deadband_noop (K : OsdConfig) (st : VarioState) (canvas : Option displayCanvas_t)
    (ex ey : Nat) (zvel : ℚ) :
    (osdCanvasDrawVario K st canvas ex ey zvel = some (st, []) ↔
      |f32 (st.prev - zvel)| < varioDeadband K) ∧
    (∀ t : ℚ, f32 t = t → t < varioDeadband K → |st.prev - zvel| ≤ t →
      osdCanvasDrawVario K st canvas ex ey zvel = some (st, [])) ∧
    (varioDeadband K ≤ |st.prev - zvel| →
      osdCanvasDrawVario K st canvas ex ey zvel ≠ some (st, [])) := by
  have hiff : osdCanvasDrawVario K st canvas ex ey zvel = some (st, []) ↔
      |f32 (st.prev - zvel)| < varioDeadband K := by
    constructor
    · intro h
      by_contra hn
      cases canvas with
      | none => simp [osdCanvasDrawVario, hn, osdCanvasDrawVarioShape] at h
      | some c =>
        rcases vario_step K c st ex ey zvel with ⟨h1, _⟩ | ⟨_, e, d, _, _, hne, h2⟩
        · exact hn h1
        · rw [h2] at h
          exact hne (Prod.mk.inj (Option.some.inj h)).2
    · intro h
      simp [osdCanvasDrawVario, h]
  refine ⟨hiff, ?_, ?_⟩
  · intro t ht hlt hd
    have h1 := f32_abs_le hd
    rw [ht] at h1
    exact hiff.mpr (lt_of_le_of_lt h1 hlt)
  · intro hge h
    have h1 := hiff.mp h
    have h2 : varioDeadband K ≤ |f32 (st.prev - zvel)| := by
      rw [f32_abs, ← varioDeadband_float]
      exact f32_mono hge
    exact absurd h1 (not_lt.mpr h2)

/-- C1 as amended, at the upstream scale 50 (deadband 2.5): cached velocity 10, new velocity
12, the difference 2 being a `float` below the deadband. -/
theorem vario_deadband_noop_witness :
    (f32 2 = 2 ∧ 2 < varioDeadband upstreamConfig ∧ |(VarioState.mk 10).prev - 12| ≤ 2) ∧
    osdCanvasDrawVario upstreamConfig ⟨10⟩ (some sampleCanvas) 3 4 12 = some (⟨10⟩, []) :=
  ⟨⟨by decide!, by decide!, by decide!⟩,
    (vario_deadband_noop upstreamConfig ⟨10⟩ (some sampleCanvas) 3 4 12).2.1 2
      (by decide!) (by decide!) (by decide!)⟩

/-! ## C2: idempotence -/

/-- At the wrap-around of the millisecond clock the second of two identical calls of
`osdCanvasDrawArtificialHorizon` draws again: the stored next-draw time has wrapped to
999. -/
theorem ahi_second_call_draws_at_wrap :
    ¬ SecondCallSilent (fun st => osdCanvasDrawArtificialHorizon upstreamConfig st
      (some sampleCanvas) 0 0 (2 ^ 32 - 1)) := by
  intro hsilent
  obtain ⟨st1, l1, h1, h2⟩ := hsilent AhiState.init
  beta_reduce at h1 h2
  have hdue1 : ahiDue AhiState.init 0 0 (2 ^ 32 - 1) :=
    Or.inr (Or.inr (by unfold AhiState.init; norm_num))
  rcases ahi_step upstreamConfig sampleCanvas AhiState.init 0 0 (2 ^ 32 - 1) with
    ⟨hn, _⟩ | ⟨_, e, d, _, _, _, h⟩
  · exact hn hdue1
  · rw [h] at h1
    have hst : st1 = ⟨0, 0, (2 ^ 32 - 1 + AHI_MAX_DRAW_INTERVAL_MS) % timeMsModulus⟩ :=
      ((Prod.mk.inj (Option.some.inj h1)).1).symm
    have hdue2 : ahiDue st1 0 0 (2 ^ 32 - 1) := by
      rw [hst]
      exact Or.inr (Or.inr (by norm_num [AHI_MAX_DRAW_INTERVAL_MS, timeMsModulus]))
    rcases ahi_step upstreamConfig sampleCanvas st1 0 0 (2 ^ 32 - 1) with
      ⟨hn, _⟩ | ⟨_, e2, d2, _, _, hne, h'⟩
    · exact hn hdue2
    · rw [h'] at h2
      exact hne (Prod.mk.inj (Option.some.inj h2)).2

/-! ## C3: vario erase symmetry -/

/-- The erase loop is the draw loop with every character turned into its erase form. -/
theorem varioShapeLoop_eraseForm (x : Int) (sym : osdChar) (step : Int) (n : Nat) (yy : Int) :
    varioShapeLoop x sym step true n yy = (varioShapeLoop x sym step false n yy).map eraseForm := by
  induction n generalizing yy with
  | zero => rfl
  | succ n ih => simp [varioShapeLoop, ih, eraseForm]

/-- The erase loop and the draw loop agree once colour is masked out. -/
theorem varioShapeLoop_maskColor (x : Int) (sym : osdChar) (step : Int) (n : Nat) (yy : Int) :
    (varioShapeLoop x sym step true n yy).map maskColor =
      (varioShapeLoop x sym step false n yy).map maskColor := by
  induction n generalizing yy with
  | zero => rfl
  | succ n ih => simp [varioShapeLoop, ih, maskColor]

/-- The erase loop and the draw loop draw the same glyphs at the same places. -/
theorem varioShapeLoop_characterDraws (x : Int) (sym : osdChar) (step : Int) (n : Nat) (yy : Int) :
    characterDraws (varioShapeLoop x sym step true n yy) =
      characterDraws (varioShapeLoop x sym step false n yy) := by
  induction n generalizing yy with
  | zero => rfl
  | succ n ih => simp [varioShapeLoop, ih, characterDraws]

/-- The loop of the vario shape sets no clip rectangle. -/
theorem varioShapeLoop_clipRects (x : Int) (sym : osdChar) (step : Int) (erase : Bool) (n : Nat)
    (yy : Int) : clipRects (varioShapeLoop x sym step erase n yy) = [] := by
  induction n generalizing yy with
  | zero => rfl
  | succ n ih => cases erase <;> simp [varioShapeLoop, ih, clipRects]

/-- C3. Vario erase symmetry: on a bound canvas the erase log and the draw log of
`osdCanvasDrawVarioShape` for the same position and velocity agree once colour is masked
out, have the same clip rectangle, the same character draws (place and glyph) and the
same length, and the erase log is the draw log with each character drawn as a mask in
`DISPLAY_CANVAS_COLOR_TRANSPARENT`. -/
theorem vario_erase_symmetry (K : OsdConfig) (c : displayCanvas_t) (ex ey : Nat) (v : ℚ) :
    ∃ e d : List CanvasCall,
      osdCanvasDrawVarioShape K (some c) ex ey v true = some e ∧
      osdCanvasDrawVarioShape K (some c) ex ey v false = some d ∧
      e.map maskColor = d.map maskColor ∧
      clipRects e = clipRects d ∧
      characterDraws e = characterDraws d ∧
      e.length = d.length ∧
      e = d.map eraseForm := by
  refine ⟨_, _, rfl, rfl, ?_, ?_, ?_, ?_, ?_⟩
  · simp [maskColor, varioShapeLoop_maskColor]
  · simp [clipRects, varioShapeLoop_clipRects]
  · simp [characterDraws, varioShapeLoop_characterDraws]
  · simp [varioShapeLoop_eraseForm]
  · simp [eraseForm, varioShapeLoop_eraseForm]

/-! ## C4: heading table bound -/

/-- A copy whose reads all lie inside the table returns the window of the table. -/
theorem memcpyFrom_inside (table : List osdChar) (n : Nat) (idx : Int) (h0 : 0 ≤ idx)
    (h1 : idx + (n : Int) ≤ (table.length : Int)) :
    memcpyFrom table idx n = some ((table.drop idx.toNat).take n) := by
  induction n generalizing idx with
  | zero => simp [memcpyFrom]
  | succ n ih =>
    have hlt : idx.toNat < table.length := by omega
    have hnext : (idx + 1).toNat = idx.toNat + 1 := by omega
    have hrest := ih (idx + 1) (by omega) (by push_cast at h1 ⊢; omega)
    simp only [memcpyFrom, readAt, if_pos h0, hrest, hnext]
    rw [List.get?_eq_get hlt]
    simp only [Option.some.injEq]
    rw [List.drop_eq_getElem_cons hlt, List.take_succ_cons]
    rfl

/-- For a heading in [0, 3600) the table index is between 0 and `3599 / D`. -/
theorem heading_index_le (K : OsdConfig) (hD : 0 < K.OSD_HEADING_GRAPH_DECIDEGREES_PER_CHAR)
    (heading : Int) (h0 : 0 ≤ heading) (h1 : heading < 3600) :
    0 ≤ Int.tdiv heading K.OSD_HEADING_GRAPH_DECIDEGREES_PER_CHAR ∧
    Int.tdiv heading K.OSD_HEADING_GRAPH_DECIDEGREES_PER_CHAR ≤
      Int.tdiv 3599 K.OSD_HEADING_GRAPH_DECIDEGREES_PER_CHAR := by
  rw [Int.tdiv_eq_ediv h0 (le_of_lt hD), Int.tdiv_eq_ediv (by norm_num : (0:Int) ≤ 3599) (le_of_lt hD)]
  constructor
  · exact Int.ediv_nonneg h0 (le_of_lt hD)
  · exact Int.ediv_le_ediv hD (by omega)

/-- C4. Heading table bound: when the `STATIC_ASSERT` of the source holds (and `D > 0`), for
every heading in [0, 3600) the index `heading / D` satisfies `idx + W <= length(graph) -
1`, each of the `W` reads `graph[idx + k]` is inside the table, the copy into `buf`
returns `W` characters, and `osdCanvasDrawHeadingGraph` on a bound canvas returns. -/
theorem heading_table_bound (K : OsdConfig)
    (hD : 0 < K.OSD_HEADING_GRAPH_DECIDEGREES_PER_CHAR) (hassert : graphStaticAssert K)
    (heading : Int) (h0 : 0 ≤ heading) (h1 : heading < 3600) :
    Int.tdiv heading K.OSD_HEADING_GRAPH_DECIDEGREES_PER_CHAR + (K.OSD_HEADING_GRAPH_WIDTH : Int)
      ≤ (graph.length : Int) - 1 ∧
    (∀ k : Nat, k < K.OSD_HEADING_GRAPH_WIDTH →
      (readAt graph (Int.tdiv heading K.OSD_HEADING_GRAPH_DECIDEGREES_PER_CHAR + (k : Int))).isSome) ∧
    (∃ buf : List osdChar,
      memcpyFrom graph (Int.tdiv heading K.OSD_HEADING_GRAPH_DECIDEGREES_PER_CHAR)
        K.OSD_HEADING_GRAPH_WIDTH = some buf ∧
      buf.length = K.OSD_HEADING_GRAPH_WIDTH) ∧
    ∀ (c : displayCanvas_t) (px py : Int),
      (osdCanvasDrawHeadingGraph K (some c) px py heading).isSome := by
  obtain ⟨hidx0, hidx⟩ := heading_index_le K hD heading h0 h1
  unfold graphStaticAssert at hassert
  have hb : Int.tdiv heading K.OSD_HEADING_GRAPH_DECIDEGREES_PER_CHAR +
      (K.OSD_HEADING_GRAPH_WIDTH : Int) ≤ (graph.length : Int) - 1 := by omega
  have hcopy := memcpyFrom_inside graph K.OSD_HEADING_GRAPH_WIDTH
    (Int.tdiv heading K.OSD_HEADING_GRAPH_DECIDEGREES_PER_CHAR) hidx0 (by omega)
  refine ⟨hb, ?_, ?_, ?_⟩
  rotate_left
  · refine ⟨_, hcopy, ?_⟩
    rw [List.length_take, List.length_drop]
    omega
  · intro c px py
    simp only [osdCanvasDrawHeadingGraph, hcopy]
    rfl
  · intro k hk
    have hk0 : 0 ≤ Int.tdiv heading K.OSD_HEADING_GRAPH_DECIDEGREES_PER_CHAR + (k : Int) := by omega
    have hlt : (Int.tdiv heading K.OSD_HEADING_GRAPH_DECIDEGREES_PER_CHAR + (k : Int)).toNat
        < graph.length := by omega
    simp only [readAt, if_pos hk0]
    rw [List.get?_eq_get hlt]
    rfl

/-- C4 at the upstream `W = 9`, `D = 225` and heading 3599. -/
theorem heading_table_bound_witness :
    Int.tdiv 3599 upstreamConfig.OSD_HEADING_GRAPH_DECIDEGREES_PER_CHAR +
        (upstreamConfig.OSD_HEADING_GRAPH_WIDTH : Int) ≤ (graph.length : Int) - 1 ∧
    (∀ k : Nat, k < upstreamConfig.OSD_HEADING_GRAPH_WIDTH →
      (readAt graph (Int.tdiv 3599 upstreamConfig.OSD_HEADING_GRAPH_DECIDEGREES_PER_CHAR +
        (k : Int))).isSome) ∧
    (∃ buf : List osdChar,
      memcpyFrom graph (Int.tdiv 3599 upstreamConfig.OSD_HEADING_GRAPH_DECIDEGREES_PER_CHAR)
        upstreamConfig.OSD_HEADING_GRAPH_WIDTH = some buf ∧
      buf.length = upstreamConfig.OSD_HEADING_GRAPH_WIDTH) ∧
    ∀ (c : displayCanvas_t) (px py : Int),
      (osdCanvasDrawHeadingGraph upstreamConfig (some c) px py 3599).isSome :=
  heading_table_bound upstreamConfig (by decide) (by decide) 3599 (by decide) (by decide)

/-! ## C5: artificial-horizon rate limit -/

/-- No call, no redraw. -/
theorem ahiRedrawTimes_nil (K : OsdConfig) (c : displayCanvas_t) (st : AhiState) :
    ahiRedrawTimes K c st [] = [] := rfl

/-- The redraw clocks of a sequence, by the redraw condition of its first call. -/
theorem ahiRedrawTimes_cons (K : OsdConfig) (c : displayCanvas_t) (st : AhiState) (x : AhiInput)
    (xs : List AhiInput) :
    ahiRedrawTimes K c st (x :: xs) =
      if ahiDue st x.pitchAngle x.rollAngle x.now then
        x.now :: ahiRedrawTimes K c (ahiNext st x) xs
      else ahiRedrawTimes K c (ahiNext st x) xs := by
  rcases ahi_step K c st x.pitchAngle x.rollAngle x.now with ⟨hd, h⟩ | ⟨hd, e, d, _, _, hne, h⟩
  · simp [ahiRedrawTimes, h, ahiNext, hd]
  · have hemp : (e ++ d).isEmpty = false := by
      cases hed : e ++ d with
      | nil => exact absurd hed hne
      | cons a l => rfl
    simp only [ahiRedrawTimes, h, ahiNext, if_pos hd, hemp]
    simp

/-- The empty sequence stays near the cache. -/
theorem ahiNearCache_nil (K : OsdConfig) (c : displayCanvas_t) (st : AhiState) :
    ahiNearCache K c st [] ↔ True := Iff.rfl

/-- Staying near the cache, unfolded at the first call. -/
theorem ahiNearCache_cons (K : OsdConfig) (c : displayCanvas_t) (st : AhiState) (x : AhiInput)
    (xs : List AhiInput) :
    ahiNearCache K c st (x :: xs) ↔
      |st.prevPitchAngle - x.pitchAngle| ≤ 1 / 100 ∧ |st.prevRollAngle - x.rollAngle| ≤ 1 / 100 ∧
      ahiNearCache K c (ahiNext st x) xs := by
  rcases ahi_step K c st x.pitchAngle x.rollAngle x.now with ⟨hd, h⟩ | ⟨hd, e, d, _, _, _, h⟩
  · simp [ahiNearCache, h, ahiNext, hd]
  · simp [ahiNearCache, h, ahiNext, hd]

/-- The statics that a call on a bound canvas returns are those of `ahiNext`. -/
theorem ahi_state_after (K : OsdConfig) (c : displayCanvas_t) (st : AhiState) (x : AhiInput)
    (st1 : AhiState) (l : List CanvasCall)
    (h : osdCanvasDrawArtificialHorizon K st (some c) x.pitchAngle x.rollAngle x.now
      = some (st1, l)) : st1 = ahiNext st x := by
  rcases ahi_step K c st x.pitchAngle x.rollAngle x.now with ⟨hd, h'⟩ | ⟨hd, e, d, _, _, _, h'⟩
  · rw [h'] at h
    simp only [Option.some.injEq, Prod.mk.injEq] at h
    rw [← h.1]
    simp [ahiNext, hd]
  · rw [h'] at h
    simp only [Option.some.injEq, Prod.mk.injEq] at h
    rw [← h.1]
    simp [ahiNext, hd]

/-- While every call stays near the cache, each redraw comes after the cached next-draw time
and redraws are more than the interval apart. -/
theorem ahiRedrawTimes_nearCache (K : OsdConfig) (c : displayCanvas_t) (xs : List AhiInput) :
    ∀ st : AhiState, (∀ x ∈ xs, x.now + AHI_MAX_DRAW_INTERVAL_MS < timeMsModulus) →
      ahiNearCache K c st xs →
      (∀ t ∈ ahiRedrawTimes K c st xs, st.nextDrawMs < t) ∧
      (ahiRedrawTimes K c st xs).Pairwise (fun a b => a + AHI_MAX_DRAW_INTERVAL_MS < b) := by
  induction xs with
  | nil => intro st _ _; simp [ahiRedrawTimes]
  | cons x xs ih =>
    intro st hclock hnear
    rw [ahiNearCache_cons] at hnear
    obtain ⟨hp, hr, hrest⟩ := hnear
    have hx := hclock x (List.mem_cons_self x xs)
    obtain ⟨hall, hpair⟩ := ih (ahiNext st x)
      (fun y hy => hclock y (List.mem_cons_of_mem x hy)) hrest
    rw [ahiRedrawTimes_cons]
    by_cases hd : ahiDue st x.pitchAngle x.rollAngle x.now
    · have hnow : st.nextDrawMs < x.now := by
        rcases hd with h | h | h
        · exact absurd (f32_abs_le hp) (not_le.mpr h)
        · exact absurd (f32_abs_le hr) (not_le.mpr h)
        · exact h
      have hnext : (ahiNext st x).nextDrawMs = x.now + AHI_MAX_DRAW_INTERVAL_MS := by
        simp [ahiNext, hd, Nat.mod_eq_of_lt hx]
      rw [hnext] at hall
      rw [if_pos hd]
      refine ⟨?_, List.pairwise_cons.mpr ⟨hall, hpair⟩⟩
      intro t ht
      rcases List.mem_cons.mp ht with rfl | ht
      · exact hnow
      · have := hall t ht
        omega
    · have hst : ahiNext st x = st := by simp [ahiNext, hd]
      rw [if_neg hd]
      rw [hst] at hall hpair ⊢
      exact ⟨hall, hpair⟩

/-- From the initial statics a call at pitch 0 and roll 0 redraws: the cached pitch 9999 is far
from 0. -/
theorem ahiDue_init (now : Nat) : ahiDue AhiState.init 0 0 now := by
  have h : f32 ((9999 : ℚ) - 0) = 9999 := by
    have := f32_intCast 9999 (by norm_num)
    rw [sub_zero]
    exact_mod_cast this
  refine Or.inl ?_
  show |f32 ((9999 : ℚ) - 0)| > ahiThreshold
  rw [h, ahiThreshold_value]
  norm_num

/-- C5 as stated fails: in `driftCalls` the clock does not decrease and pitch changes by
`3 / 512` rad (about 0.006 rad) from each call to the next, yet the calls at 0 ms, 2 ms
and 4 ms all redraw, because the pitch is compared with the last drawn pitch and has by
then drifted `6 / 512` rad (about 0.012 rad) away from it. -/
theorem ahi_slow_drift_redraws_early :
    ahiClockMonotone driftCalls ∧ ahiSmallSteps driftCalls ∧
    ahiRedrawTimes upstreamConfig sampleCanvas AhiState.init driftCalls = [0, 2, 4] ∧
    ¬ (ahiRedrawTimes upstreamConfig sampleCanvas AhiState.init driftCalls).Pairwise
      (fun a b => a + AHI_MAX_DRAW_INTERVAL_MS < b) := by
  have d0 : ahiDue AhiState.init 0 0 0 := ahiDue_init 0
  have e0 : ahiNext AhiState.init ⟨0, 0, 0⟩ = ⟨0, 0, 1000⟩ := by
    simp only [ahiNext, if_pos d0]
    rfl
  have d1 : ¬ ahiDue ⟨0, 0, 1000⟩ (3 / 512) 0 1 := by decide!
  have e1 : ahiNext ⟨0, 0, 1000⟩ ⟨3 / 512, 0, 1⟩ = ⟨0, 0, 1000⟩ := by decide!
  have d2 : ahiDue ⟨0, 0, 1000⟩ (6 / 512) 0 2 := by decide!
  have e2 : ahiNext ⟨0, 0, 1000⟩ ⟨6 / 512, 0, 2⟩ = ⟨6 / 512, 0, 1002⟩ := by decide!
  have d3 : ¬ ahiDue ⟨6 / 512, 0, 1002⟩ (9 / 512) 0 3 := by decide!
  have e3 : ahiNext ⟨6 / 512, 0, 1002⟩ ⟨9 / 512, 0, 3⟩ = ⟨6 / 512, 0, 1002⟩ := by decide!
  have d4 : ahiDue ⟨6 / 512, 0, 1002⟩ (12 / 512) 0 4 := by decide!
  have h : ahiRedrawTimes upstreamConfig sampleCanvas AhiState.init driftCalls = [0, 2, 4] := by
    rw [driftCalls, ahiRedrawTimes_cons, if_pos d0, e0, ahiRedrawTimes_cons, if_neg d1, e1,
      ahiRedrawTimes_cons, if_pos d2, e2, ahiRedrawTimes_cons, if_neg d3, e3,
      ahiRedrawTimes_cons, if_pos d4, ahiRedrawTimes_nil]
  refine ⟨?_, ?_, h, ?_⟩
  · simp [ahiClockMonotone, driftCalls]
  · simp only [ahiSmallSteps, driftCalls]
    norm_num [abs_of_neg]
  · rw [h]
    simp [AHI_MAX_DRAW_INTERVAL_MS]

/-- C5 as amended. Artificial-horizon rate limit: after any first call, as long as every
later call has pitch and roll within 0.01 rad of the cached (last drawn) values and no
`now + 1000` wraps, any two calls of the sequence that redraw have clock values more
than 1000 ms apart. -/
theorem ahi_rate_limit (K : OsdConfig) (c : displayCanvas_t) (st : AhiState) (x0 : AhiInput)
    (xs : List AhiInput)
    (hclock : ∀ x ∈ x0 :: xs, x.now + AHI_MAX_DRAW_INTERVAL_MS < timeMsModulus)
    (hnear : ahiNearCache K c (ahiNext st x0) xs) :
    (ahiRedrawTimes K c st (x0 :: xs)).Pairwise
      (fun a b => a + AHI_MAX_DRAW_INTERVAL_MS < b) := by
  have hx0 := hclock x0 (List.mem_cons_self x0 xs)
  obtain ⟨hall, hpair⟩ := ahiRedrawTimes_nearCache K c xs (ahiNext st x0)
    (fun y hy => hclock y (List.mem_cons_of_mem x0 hy)) hnear
  rw [ahiRedrawTimes_cons]
  by_cases hd : ahiDue st x0.pitchAngle x0.rollAngle x0.now
  · have hnext : (ahiNext st x0).nextDrawMs = x0.now + AHI_MAX_DRAW_INTERVAL_MS := by
      simp [ahiNext, hd, Nat.mod_eq_of_lt hx0]
    rw [hnext] at hall
    rw [if_pos hd]
    exact List.pairwise_cons.mpr ⟨hall, hpair⟩
  · rw [if_neg hd]
    exact hpair

/-- C5 as amended, on the sequence `steadyFirst :: steadyRest` from the initial statics (it
redraws at 0, 1001 and 2002 ms). -/
theorem ahi_rate_limit_witness :
    (∀ x ∈ steadyFirst :: steadyRest, x.now + AHI_MAX_DRAW_INTERVAL_MS < timeMsModulus) ∧
    ahiNearCache upstreamConfig sampleCanvas (ahiNext AhiState.init steadyFirst) steadyRest ∧
    (ahiRedrawTimes upstreamConfig sampleCanvas AhiState.init (steadyFirst :: steadyRest)).Pairwise
      (fun a b => a + AHI_MAX_DRAW_INTERVAL_MS < b) :=
  have hclock : ∀ x ∈ steadyFirst :: steadyRest,
      x.now + AHI_MAX_DRAW_INTERVAL_MS < timeMsModulus := by
    simp [steadyFirst, steadyRest, AHI_MAX_DRAW_INTERVAL_MS, timeMsModulus]
  have hnear : ahiNearCache upstreamConfig sampleCanvas (ahiNext AhiState.init steadyFirst)
      steadyRest := by
    have e0 : ahiNext AhiState.init steadyFirst = ⟨0, 0, 1000⟩ := by
      simp only [ahiNext, steadyFirst, if_pos (ahiDue_init 0)]
      rfl
    have e1 : ahiNext ⟨0, 0, 1000⟩ ⟨1 / 256, 0, 500⟩ = ⟨0, 0, 1000⟩ := by decide!
    have e2 : ahiNext ⟨0, 0, 1000⟩ ⟨1 / 128, 0, 1001⟩ = ⟨1 / 128, 0, 2001⟩ := by decide!
    simp only [steadyRest, ahiNearCache_cons, ahiNearCache_nil, e0, e1, e2]
    norm_num [abs_of_nonneg, abs_of_neg]
  ⟨hclock, hnear,
    ahi_rate_limit upstreamConfig sampleCanvas AhiState.init steadyFirst steadyRest hclock hnear⟩

/-! ## C6: erase previous, then draw new -/

/-- C7 as stated fails: with no canvas bound, the four entry points at these inputs do not
complete as no-ops; each reads a field of the canvas through the null handle. -/
theorem unbound_canvas_not_noop :
    osdCanvasDrawVario upstreamConfig VarioState.init none 0 0 100 ≠ some (VarioState.init, []) ∧
    osdCanvasDrawArtificialHorizon upstreamConfig AhiState.init none 0 0 0
      ≠ some (AhiState.init, []) ∧
    osdCanvasDrawHeadingGraph upstreamConfig none 0 0 0 ≠ some [] ∧
    osdCanvasDrawDirArrow upstreamConfig none 0 0 0 false ≠ some [] := by
  refine ⟨?_, ?_, ?_, ?_⟩
  · have h : ¬ |f32 (VarioState.init.prev - 100)| < varioDeadband upstreamConfig := by
      have e : f32 (VarioState.init.prev - 100) = -100 := by
        have h1 := f32_intCast (-100) (by norm_num)
        have h2 : VarioState.init.prev - 100 = (((-100 : Int)) : ℚ) := by
          simp [VarioState.init]
        rw [h2, h1]
        norm_num
      rw [e, varioDeadband_upstream]
      norm_num
    simp [osdCanvasDrawVario, h, osdCanvasDrawVarioShape]
  · have h := ahiDue_init 0
    unfold ahiDue at h
    simp only [osdCanvasDrawArtificialHorizon, if_pos h, osdDrawArtificialHorizonShapes]
    simp
  · simp [osdCanvasDrawHeadingGraph]
  · simp [osdCanvasDrawDirArrow]

/-- C7 as amended. With no canvas bound, `osdCanvasDrawVario` inside its deadband (the `float`
difference `fabsf(prev - zvel)` below the `float` `OSD_VARIO_CM_S_PER_ARROW / 20.0f`) and
`osdCanvasDrawArtificialHorizon` with no redraw due (neither `float` difference above
`0.01f`, and `now <= nextDrawMs`) complete without a canvas call and with the render
state unchanged; in every other case, and always for `osdCanvasDrawHeadingGraph` and
`osdCanvasDrawDirArrow`, the entry point reads a canvas field through the null handle and
has no result: no entry point guards against a missing canvas. -/
theorem unbound_canvas_behaviour (K : OsdConfig) :
    (∀ (st : VarioState) (ex ey : Nat) (zvel : ℚ),
      osdCanvasDrawVario K st none ex ey zvel =
        if |f32 (st.prev - zvel)| < f32 (intToFloat K.OSD_VARIO_CM_S_PER_ARROW / 20) then
          some (st, []) else none) ∧
    (∀ (st : AhiState) (pitchAngle rollAngle : ℚ) (now : Nat),
      osdCanvasDrawArtificialHorizon K st none pitchAngle rollAngle now =
        if |f32 (st.prevPitchAngle - pitchAngle)| > f32 (1 / 100) ∨
          |f32 (st.prevRollAngle - rollAngle)| > f32 (1 / 100) ∨
          now > st.nextDrawMs then none else some (st, [])) ∧
    (∀ (px py heading : Int), osdCanvasDrawHeadingGraph K none px py heading = none) ∧
    (∀ (px py : Int) (degrees : ℚ) (eraseBefore : Bool),
      osdCanvasDrawDirArrow K none px py degrees eraseBefore = none) := by
  refine ⟨?_, ?_, ?_, ?_⟩
  · intro st ex ey zvel
    simp [osdCanvasDrawVario, osdCanvasDrawVarioShape, varioDeadband]
  · intro st p r now
    simp [osdCanvasDrawArtificialHorizon, osdDrawArtificialHorizonShapes, ahiThreshold]
  · intro px py heading
    rfl
  · intro px py degrees eraseBefore
    rfl

/-- With no canvas bound the branch is taken on the `float` difference: at the cached velocity
`2.6f` and the new velocity `0.1f`, whose exact difference is below 2.5, the vario reads
the canvas through the null handle. -/
theorem unbound_canvas_vario_boundary :
    osdCanvasDrawVario upstreamConfig ⟨5452595 / 2 ^ 21⟩ none 3 4 (13421773 / 2 ^ 27) = none := by
  decide!

/-! ## The loops of the artificial horizon -/

/-- While the level index and its neighbours convert to `float` without rounding, the loop
from `n - 2` while `ii <= n + 2` runs its body for the five indices `n - 2, ..., n + 2`. -/
theorem ahiLoop_five (K : OsdConfig) (body : Int → List CanvasCall) (n : Int)
    (hn : |n| + 3 ≤ 2 ^ 24) :
    ahiLoop body (f32 ((n : ℚ) + 2)) (floatToInt K (f32 ((n : ℚ) - 2))) =
      body (n - 2) ++ (body (n - 1) ++ (body n ++ (body (n + 1) ++ body (n + 2)))) := by
  have hb1 := neg_abs_le n
  have hb2 := le_abs_self n
  have ex : ∀ k : Int, |k| ≤ 3 → intToFloat (n + k) = ((n + k : Int) : ℚ) := by
    intro k hk
    apply intToFloat_exact
    have := abs_add n k
    omega
  have e0 : f32 ((n : ℚ) - 2) = ((n + (-2) : Int) : ℚ) := by
    have := ex (-2) (by norm_num)
    unfold intToFloat at this
    rw [← this]
    push_cast
    ring_nf
  have e1 : f32 ((n : ℚ) + 2) = ((n + 2 : Int) : ℚ) := by
    have := ex 2 (by norm_num)
    unfold intToFloat at this
    rw [← this]
    push_cast
    ring_nf
  rw [e0, e1, floatToInt_intCast K _ (by omega) (by omega)]
  have c1 : intToFloat (n + -2) ≤ ((n + 2 : Int) : ℚ) := by
    rw [ex (-2) (by norm_num)]; exact_mod_cast (by omega : n + -2 ≤ n + 2)
  have c2 : intToFloat (n + -2 + 1) ≤ ((n + 2 : Int) : ℚ) := by
    have : n + -2 + 1 = n + (-1) := by ring
    rw [this, ex (-1) (by norm_num)]; exact_mod_cast (by omega : n + -1 ≤ n + 2)
  have c3 : intToFloat (n + -2 + 1 + 1) ≤ ((n + 2 : Int) : ℚ) := by
    have : n + -2 + 1 + 1 = n + 0 := by ring
    rw [this, ex 0 (by norm_num)]; exact_mod_cast (by omega : n + 0 ≤ n + 2)
  have c4 : intToFloat (n + -2 + 1 + 1 + 1) ≤ ((n + 2 : Int) : ℚ) := by
    have : n + -2 + 1 + 1 + 1 = n + 1 := by ring
    rw [this, ex 1 (by norm_num)]; exact_mod_cast (by omega : n + 1 ≤ n + 2)
  have c5 : intToFloat (n + -2 + 1 + 1 + 1 + 1) ≤ ((n + 2 : Int) : ℚ) := by
    have : n + -2 + 1 + 1 + 1 + 1 = n + 2 := by ring
    rw [this, ex 2 (by norm_num)]
  have c6 : ¬ intToFloat (n + -2 + 1 + 1 + 1 + 1 + 1) ≤ ((n + 2 : Int) : ℚ) := by
    have : n + -2 + 1 + 1 + 1 + 1 + 1 = n + 3 := by ring
    rw [this, ex 3 (by norm_num), not_le]; exact_mod_cast (by omega : n + 2 < n + 3)
  have r1 : n + -2 < 2 ^ 31 - 1 := by omega
  have r2 : n + -2 + 1 < 2 ^ 31 - 1 := by omega
  have r3 : n + -2 + 1 + 1 < 2 ^ 31 - 1 := by omega
  have r4 : n + -2 + 1 + 1 + 1 < 2 ^ 31 - 1 := by omega
  have r5 : n + -2 + 1 + 1 + 1 + 1 < 2 ^ 31 - 1 := by omega
  rw [ahiLoop, if_pos c1, if_pos r1, ahiLoop, if_pos c2, if_pos r2, ahiLoop, if_pos c3, if_pos r3,
    ahiLoop, if_pos c4, if_pos r4, ahiLoop, if_pos c5, if_pos r5, ahiLoop, if_neg c6]
  have a0 : n + -2 = n - 2 := by ring
  have a1 : n + -2 + 1 = n - 1 := by ring
  have a2 : n + -2 + 1 + 1 = n := by ring
  have a3 : n + -2 + 1 + 1 + 1 = n + 1 := by ring
  have a4 : n + -2 + 1 + 1 + 1 + 1 = n + 2 := by ring
  rw [a4, a3, a2, a1, a0, List.append_nil]

/-- The bar drawn for level index 0 is the crosshair. -/
theorem ahiBarBody_zero (K : OsdConfig) (barWidth levelBarWidth : Int) (erase : Bool) :
    ahiBarBody K barWidth levelBarWidth erase 0 =
      [CanvasCall.setLineOutlineType displayCanvasOutlineType_e.DISPLAY_CANVAS_OUTLINE_TYPE_BOTTOM,
       CanvasCall.moveToPoint (-(Int.tdiv barWidth 2)) 0,
       CanvasCall.strokeLineToPoint (-6) 0,
       CanvasCall.moveToPoint (Int.tdiv barWidth 2) 0,
       CanvasCall.strokeLineToPoint 6 0] := by
  simp [ahiBarBody, Int.neg_tdiv]

/-- For a level index of magnitude at most 479349, `ii * 10 * 3.5f` is the `float` `35 * ii`
without rounding, and it converts to the `int` `35 * ii`. -/
theorem level_pos_exact (K : OsdConfig) (ii : Int) (h : |ii| ≤ 479349) :
    floatToInt K (f32 (intToFloat (wrapInt (ii * 10)) * pixelsPerDegreeLevel)) = 35 * ii := by
  have hb1 := neg_abs_le ii
  have hb2 := le_abs_self ii
  rw [wrapInt_of_range _ (by omega) (by omega),
    intToFloat_exact _ (by rw [abs_le]; constructor <;> omega)]
  have e : (((ii * 10 : Int) : ℚ)) * pixelsPerDegreeLevel = ((35 * ii : Int) : ℚ) := by
    unfold pixelsPerDegreeLevel; push_cast; ring
  rw [e, f32_intCast _ (by rw [abs_le]; constructor <;> omega),
    floatToInt_intCast K _ (by omega) (by omega)]

/-- The bar drawn for a level index other than 0, of magnitude at most 479349, is the level
line at `-(35 * ii)`. -/
theorem ahiBarBody_level (K : OsdConfig) (barWidth levelBarWidth : Int) (erase : Bool)
    (ii : Int) (h : ii ≠ 0) (hb : |ii| ≤ 479349) :
    ahiBarBody K barWidth levelBarWidth erase ii =
      osdDrawArtificialHorizonLevelLine levelBarWidth (-(35 * ii))
        (if ii > 9 ∨ ii < -9 then 9 else 6) erase := by
  have hb1 := neg_abs_le ii
  have hb2 := le_abs_self ii
  simp only [ahiBarBody, if_neg h, level_pos_exact K ii hb]
  rw [wrapInt_of_range _ (by omega) (by omega)]

/-- The bar drawn for a level index other than 0 is a level line. -/
theorem ahiBarBody_line (K : OsdConfig) (barWidth levelBarWidth : Int) (erase : Bool)
    (ii : Int) (h : ii ≠ 0) :
    ∃ pos margin : Int, ahiBarBody K barWidth levelBarWidth erase ii =
      osdDrawArtificialHorizonLevelLine levelBarWidth pos margin erase := by
  simp only [ahiBarBody, if_neg h]
  exact ⟨_, _, rfl⟩

/-- No label is drawn for level index 0. -/
theorem ahiLabelBody_zero (K : OsdConfig) (c : displayCanvas_t) (pitchOffset sx sy : ℚ)
    (erase : Bool) : ahiLabelBody K c pitchOffset sx sy erase 0 = [] := by
  simp [ahiLabelBody]

/-- The label drawn for a level index other than 0 is one string. -/
theorem ahiLabelBody_string (K : OsdConfig) (c : displayCanvas_t) (pitchOffset sx sy : ℚ)
    (erase : Bool) (ii : Int) (h : ii ≠ 0) :
    ∃ (px py : Int) (buf : List osdChar), ahiLabelBody K c pitchOffset sx sy erase ii =
      [if erase then
        CanvasCall.drawStringMask px py buf displayCanvasColor_e.DISPLAY_CANVAS_COLOR_TRANSPARENT 0
      else CanvasCall.drawString px py buf 0] := by
  cases erase
  · simp only [ahiLabelBody, if_neg h, Bool.false_eq_true, if_false]
    exact ⟨_, _, _, rfl⟩
  · simp only [ahiLabelBody, if_neg h, if_true]
    exact ⟨_, _, _, rfl⟩

/-- The label drawn for a level index other than 0, of magnitude at most 479349, is one
string, the decimal form of `|10 * ii|`. -/
theorem ahiLabelBody_level (K : OsdConfig) (c : displayCanvas_t) (pitchOffset sx sy : ℚ)
    (erase : Bool) (ii : Int) (h : ii ≠ 0) (hb : |ii| ≤ 479349) :
    ∃ px py : Int, ahiLabelBody K c pitchOffset sx sy erase ii =
      [if erase then
        CanvasCall.drawStringMask px py (formatDecimal |10 * ii|)
          displayCanvasColor_e.DISPLAY_CANVAS_COLOR_TRANSPARENT 0
      else CanvasCall.drawString px py (formatDecimal |10 * ii|) 0] := by
  have hb1 := neg_abs_le ii
  have hb2 := le_abs_self ii
  have hw : wrapInt (ii * 10) = ii * 10 := wrapInt_of_range _ (by omega) (by omega)
  have habs : (if ii * 10 > 0 then ii * 10 else wrapInt (-(ii * 10))) = |10 * ii| := by
    rw [wrapInt_of_range _ (by omega) (by omega)]
    rcases abs_cases (10 * ii) with ⟨h1, _⟩ | ⟨h1, _⟩ <;> split_ifs <;> omega
  cases erase
  · simp only [ahiLabelBody, if_neg h, hw, habs, Bool.false_eq_true, if_false]
    exact ⟨_, _, rfl⟩
  · simp only [ahiLabelBody, if_neg h, hw, habs, if_true]
    exact ⟨_, _, rfl⟩

/-! ## C8: push/pop balance -/

/-- C9. Transform composition order, for every cosine and sine that are exact at 0 and at
the quarter turn: rotate(0) then translate(10, 5) maps (0, 0) to (10, 5); translate(10,
0) then rotate(quarter) maps (1, 0) to (0, 11), rotate(quarter) then translate(10, 0)
maps it to (10, 1), and the two differ. -/
theorem ctm_composition_order (cosf sinf : ℚ → ℚ) (quarter : ℚ)
    (hc0 : cosf 0 = 1) (hs0 : sinf 0 = 0) (hcq : cosf quarter = 0) (hsq : sinf quarter = 1) :
    (ctmTranslate (ctmRotate cosf sinf ctmReset 0) 10 5).apply (0, 0) = (10, 5) ∧
    (ctmRotate cosf sinf (ctmTranslate ctmReset 10 0) quarter).apply (1, 0) = (0, 11) ∧
    (ctmTranslate (ctmRotate cosf sinf ctmReset quarter) 10 0).apply (1, 0) = (10, 1) ∧
    (ctmRotate cosf sinf (ctmTranslate ctmReset 10 0) quarter).apply (1, 0) ≠
      (ctmTranslate (ctmRotate cosf sinf ctmReset quarter) 10 0).apply (1, 0) := by
  have h1 : (ctmRotate cosf sinf (ctmTranslate ctmReset 10 0) quarter).apply (1, 0) = (0, 11) := by
    simp [ctmRotate, ctmTranslate, ctmReset, Ctm.compose, Ctm.apply, hcq, hsq]
    norm_num
  have h2 : (ctmTranslate (ctmRotate cosf sinf ctmReset quarter) 10 0).apply (1, 0) = (10, 1) := by
    simp [ctmRotate, ctmTranslate, ctmReset, Ctm.compose, Ctm.apply, hcq, hsq]
  refine ⟨?_, h1, h2, ?_⟩
  · simp [ctmRotate, ctmTranslate, ctmReset, Ctm.compose, Ctm.apply, hc0, hs0]
  · rw [h1, h2]
    intro h
    have := (Prod.mk.inj h).1
    norm_num at this

/-- C9 for the stand-ins `sampleCos`, `sampleSin` and the quarter turn `11 / 7`. -/
theorem ctm_composition_order_witness :
    (sampleCos 0 = 1 ∧ sampleSin 0 = 0 ∧ sampleCos (11 / 7) = 0 ∧ sampleSin (11 / 7) = 1) ∧
    (ctmRotate sampleCos sampleSin (ctmTranslate ctmReset 10 0) (11 / 7)).apply (1, 0) ≠
      (ctmTranslate (ctmRotate sampleCos sampleSin ctmReset (11 / 7)) 10 0).apply (1, 0) :=
  ⟨⟨by simp [sampleCos], by simp [sampleSin], by norm_num [sampleCos], by norm_num [sampleSin]⟩,
    (ctm_composition_order sampleCos sampleSin (11 / 7) (by simp [sampleCos]) (by simp [sampleSin])
      (by norm_num [sampleCos]) (by norm_num [sampleSin])).2.2.2⟩

/-! ## C10: level lines -/

/-- At the pitch `11712707 / 4` rad the `float` that `roundf(pitchDegrees / 10.0f)` returns is
16777218. -/
theorem pitchCenter_large :
    roundf (f32 (RADIANS_TO_DEGREES upstreamConfig (11712707 / 4) / 10)) = 16777218 := by
  have t1 : RADIANS_TO_DEGREES upstreamConfig (11712707 / 4) = 167772176 := by
    unfold RADIANS_TO_DEGREES
    exact f32_value 27 10485761 (by norm_num [upstreamConfig]) (by norm_num [upstreamConfig])
      (by norm_num) (by decide!) (by norm_num)
  have t2 : f32 ((167772176 : ℚ) / 10) = 16777218 :=
    f32_value 24 8388609 (by norm_num) (by norm_num) (by norm_num) (by decide!) (by norm_num)
  rw [t1, t2]
  norm_num [roundf]

/-- Between `2 ^ 24` and `2 ^ 25` a `float` is an even integer, so the comparison `ii <=
pitchCenter + 2` with the bound 16777220 still holds at `ii = 16777221`: the loop from
16777216 runs its body six times. -/
theorem ahiLoop_six (K : OsdConfig) (body : Int → List CanvasCall) :
    ahiLoop body (f32 ((16777218 : ℚ) + 2)) (floatToInt K (f32 ((16777218 : ℚ) - 2))) =
      body 16777216 ++ (body 16777217 ++ (body 16777218 ++ (body 16777219 ++
        (body 16777220 ++ body 16777221)))) := by
  have hhi : f32 ((16777218 : ℚ) + 2) = 16777220 :=
    f32_value 24 8388610 (by norm_num) (by norm_num) (by norm_num) (by decide!) (by norm_num)
  have hlo : f32 ((16777218 : ℚ) - 2) = ((16777216 : Int) : ℚ) :=
    f32_value 24 8388608 (by norm_num) (by norm_num) (by norm_num) (by decide!) (by norm_num)
  have f0 : intToFloat 16777216 = 16777216 :=
    f32_value 24 8388608 (by norm_num) (by norm_num) (by norm_num) (by decide!) (by norm_num)
  have f1 : intToFloat (16777216 + 1) = 16777216 :=
    f32_value 24 8388608 (by norm_num) (by norm_num) (by norm_num) (by decide!) (by norm_num)
  have f2 : intToFloat (16777216 + 1 + 1) = 16777218 :=
    f32_value 24 8388609 (by norm_num) (by norm_num) (by norm_num) (by decide!) (by norm_num)
  have f3 : intToFloat (16777216 + 1 + 1 + 1) = 16777220 :=
    f32_value 24 8388610 (by norm_num) (by norm_num) (by norm_num) (by decide!) (by norm_num)
  have f4 : intToFloat (16777216 + 1 + 1 + 1 + 1) = 16777220 :=
    f32_value 24 8388610 (by norm_num) (by norm_num) (by norm_num) (by decide!) (by norm_num)
  have f5 : intToFloat (16777216 + 1 + 1 + 1 + 1 + 1) = 16777220 :=
    f32_value 24 8388610 (by norm_num) (by norm_num) (by norm_num) (by decide!) (by norm_num)
  have f6 : intToFloat (16777216 + 1 + 1 + 1 + 1 + 1 + 1) = 16777222 :=
    f32_value 24 8388611 (by norm_num) (by norm_num) (by norm_num) (by decide!) (by norm_num)
  rw [hhi, hlo, floatToInt_intCast K _ (by norm_num) (by norm_num)]
  rw [ahiLoop, f0, if_pos (by norm_num), if_pos (by norm_num),
    ahiLoop, f1, if_pos (by norm_num), if_pos (by norm_num),
    ahiLoop, f2, if_pos (by norm_num), if_pos (by norm_num),
    ahiLoop, f3, if_pos (by norm_num), if_pos (by norm_num),
    ahiLoop, f4, if_pos (by norm_num), if_pos (by norm_num),
    ahiLoop, f5, if_pos (by norm_num), if_pos (by norm_num),
    ahiLoop, f6, if_neg (by norm_num), List.append_nil]
  rfl

/-- C10 as stated fails. The `float` pitch `11712707 / 4` rad gives `pitchCenter = 16777218`,
inside the range of `int`; there the two loops of `osdDrawArtificialHorizonShapes` run
for the six level indices 16777216, ..., 16777221, not five: the `float` bound
`pitchCenter + 2 = 16777220` is compared with `ii` converted to `float`, and 16777221
converts to 16777220. Every one of the six indices draws a level line and a label; the
label of the sixth is the text 167772210. -/
theorem ahi_six_level_lines :
    f32 (11712707 / 4) = 11712707 / 4 ∧
    pitchCenterIndex upstreamConfig (11712707 / 4) = 16777218 ∧
    (-2 ^ 31 ≤ pitchCenterIndex upstreamConfig (11712707 / 4) ∧
      pitchCenterIndex upstreamConfig (11712707 / 4) ≤ 2 ^ 31 - 1) ∧
    ∃ (bar label : Int → List CanvasCall),
      osdDrawArtificialHorizonShapes upstreamConfig (some sampleCanvas) (11712707 / 4) 0 false =
        some ([CanvasCall.contextPush] ++ ahiFrame upstreamConfig sampleCanvas false ++
          [CanvasCall.ctmTranslate 0
             (f32 (-(RADIANS_TO_DEGREES upstreamConfig (11712707 / 4)) * pixelsPerDegreeLevel)),
           CanvasCall.contextPush,
           CanvasCall.ctmRotate (-0),
           CanvasCall.ctmTranslate (intToFloat (Int.tdiv (sampleCanvas.width : Int) 2))
             (intToFloat (Int.tdiv (sampleCanvas.height : Int) 2))] ++
          ([16777216, 16777217, 16777218, 16777219, 16777220, 16777221] : List Int).flatMap bar ++
          [CanvasCall.contextPop,
           CanvasCall.ctmTranslate (intToFloat (Int.tdiv (sampleCanvas.width : Int) 2))
             (intToFloat (Int.tdiv (sampleCanvas.height : Int) 2)),
           CanvasCall.ctmScale (1 / 2) (1 / 2)] ++
          ([16777216, 16777217, 16777218, 16777219, 16777220, 16777221] : List Int).flatMap label ++
          [CanvasCall.contextPop]) ∧
      (∀ ii : Int, ii ≠ 0 → ∃ pos margin : Int,
        bar ii = osdDrawArtificialHorizonLevelLine
          (floatToInt upstreamConfig ((((upstreamConfig.OSD_AHI_WIDTH - 1) *
            (sampleCanvas.gridElementWidth : Int) : Int) : ℚ) * (3 / 4))) pos margin false) ∧
      (∀ ii : Int, ii ≠ 0 → ∃ (px py : Int) (buf : List osdChar),
        label ii = [CanvasCall.drawString px py buf 0]) ∧
      (∃ px py : Int, label 16777221 = [CanvasCall.drawString px py (formatDecimal 167772210) 0]) := by
  have hc : pitchCenterIndex upstreamConfig (11712707 / 4) = 16777218 := by
    have h := pitchCenter_large
    rw [roundf_eq_index] at h
    exact_mod_cast h
  refine ⟨?_, hc, ?_, ?_⟩
  · have := f32_exact 11712707 (-2) (by norm_num) (by norm_num)
    norm_num at this ⊢
    exact this
  · rw [hc]; norm_num
  · refine ⟨ahiBarBody upstreamConfig
        ((upstreamConfig.OSD_AHI_WIDTH - 1) * (sampleCanvas.gridElementWidth : Int))
        (floatToInt upstreamConfig ((((upstreamConfig.OSD_AHI_WIDTH - 1) *
          (sampleCanvas.gridElementWidth : Int) : Int) : ℚ) * (3 / 4))) false,
      ahiLabelBody upstreamConfig sampleCanvas
        (f32 (-(RADIANS_TO_DEGREES upstreamConfig (11712707 / 4)) * pixelsPerDegreeLevel))
        (upstreamConfig.sin_approx (-0)) (upstreamConfig.cos_approx 0) false, ?_, ?_, ?_, ?_⟩
    · simp only [osdDrawArtificialHorizonShapes, pitchCenter_large, ahiLoop_six]
      simp [List.flatMap]
    · exact fun ii h => ahiBarBody_line _ _ _ _ ii h
    · intro ii h
      obtain ⟨px, py, buf, hl⟩ := ahiLabelBody_string upstreamConfig sampleCanvas
        (f32 (-(RADIANS_TO_DEGREES upstreamConfig (11712707 / 4)) * pixelsPerDegreeLevel))
        (upstreamConfig.sin_approx (-0)) (upstreamConfig.cos_approx 0) false ii h
      exact ⟨px, py, buf, by simpa using hl⟩
    · have hw : wrapInt (16777221 * 10) = 167772210 := by decide
      have h0 : (16777221 : Int) ≠ 0 := by norm_num
      have hpos : (167772210 : Int) > 0 := by norm_num
      simp only [ahiLabelBody, if_neg h0, hw, if_pos hpos, Bool.false_eq_true, if_false]
      exact ⟨_, _, rfl⟩

/-- C10 as amended. Level lines of `osdDrawArtificialHorizonShapes`, for a pitch whose level
index `c = roundf(pitchDegrees / 10.0f)`, computed in `float` from `pitchDegrees =
pitchAngle / RAD` with `RAD` not zero, has magnitude at most 479347 (so that `c - 2`, ...,
`c + 3` and the products `35 * ii` are `float`s): the bar loop and the label loop run for exactly the five
indices `c - 2, ..., c + 2`; for `ii != 0` the bar is one level line at position `-(35
* ii)` and the label is one string, the decimal form of `|10 * ii|`; for `ii = 0` the bar
is the two crosshair strokes between `-+barWidth / 2` and `-+6` at `y = 0` and there is no
label. -/
theorem ahi_five_level_lines (K : OsdConfig) (c : displayCanvas_t) (pitchAngle rollAngle : ℚ)
    (erase : Bool) (_hRAD : K.RAD ≠ 0) (hc : |pitchCenterIndex K pitchAngle| ≤ 479347) :
    ∃ (bar label : Int → List CanvasCall),
      osdDrawArtificialHorizonShapes K (some c) pitchAngle rollAngle erase =
        some ([CanvasCall.contextPush] ++ ahiFrame K c erase ++
          [CanvasCall.ctmTranslate 0
             (f32 (-(RADIANS_TO_DEGREES K pitchAngle) * pixelsPerDegreeLevel)),
           CanvasCall.contextPush,
           CanvasCall.ctmRotate (-rollAngle),
           CanvasCall.ctmTranslate (intToFloat (Int.tdiv (c.width : Int) 2))
             (intToFloat (Int.tdiv (c.height : Int) 2))] ++
          [pitchCenterIndex K pitchAngle - 2, pitchCenterIndex K pitchAngle - 1,
            pitchCenterIndex K pitchAngle, pitchCenterIndex K pitchAngle + 1,
            pitchCenterIndex K pitchAngle + 2].flatMap bar ++
          [CanvasCall.contextPop,
           CanvasCall.ctmTranslate (intToFloat (Int.tdiv (c.width : Int) 2))
             (intToFloat (Int.tdiv (c.height : Int) 2)),
           CanvasCall.ctmScale (1 / 2) (1 / 2)] ++
          [pitchCenterIndex K pitchAngle - 2, pitchCenterIndex K pitchAngle - 1,
            pitchCenterIndex K pitchAngle, pitchCenterIndex K pitchAngle + 1,
            pitchCenterIndex K pitchAngle + 2].flatMap label ++
          [CanvasCall.contextPop]) ∧
      (∀ ii ∈ [pitchCenterIndex K pitchAngle - 2, pitchCenterIndex K pitchAngle - 1,
          pitchCenterIndex K pitchAngle, pitchCenterIndex K pitchAngle + 1,
          pitchCenterIndex K pitchAngle + 2], ii ≠ 0 →
        bar ii = osdDrawArtificialHorizonLevelLine
          (floatToInt K ((((K.OSD_AHI_WIDTH - 1) * (c.gridElementWidth : Int) : Int) : ℚ) * (3 / 4)))
          (-(35 * ii)) (if ii > 9 ∨ ii < -9 then 9 else 6) erase) ∧
      bar 0 =
        [CanvasCall.setLineOutlineType displayCanvasOutlineType_e.DISPLAY_CANVAS_OUTLINE_TYPE_BOTTOM,
         CanvasCall.moveToPoint (-(Int.tdiv ((K.OSD_AHI_WIDTH - 1) * (c.gridElementWidth : Int)) 2)) 0,
         CanvasCall.strokeLineToPoint (-6) 0,
         CanvasCall.moveToPoint (Int.tdiv ((K.OSD_AHI_WIDTH - 1) * (c.gridElementWidth : Int)) 2) 0,
         CanvasCall.strokeLineToPoint 6 0] ∧
      (∀ ii ∈ [pitchCenterIndex K pitchAngle - 2, pitchCenterIndex K pitchAngle - 1,
          pitchCenterIndex K pitchAngle, pitchCenterIndex K pitchAngle + 1,
          pitchCenterIndex K pitchAngle + 2], ii ≠ 0 → ∃ px py : Int,
        label ii =
          [if erase then
            CanvasCall.drawStringMask px py (formatDecimal |10 * ii|)
              displayCanvasColor_e.DISPLAY_CANVAS_COLOR_TRANSPARENT 0
          else CanvasCall.drawString px py (formatDecimal |10 * ii|) 0]) ∧
      label 0 = [] := by
  have hb1 := neg_abs_le (pitchCenterIndex K pitchAngle)
  have hb2 := le_abs_self (pitchCenterIndex K pitchAngle)
  have hmem : ∀ ii ∈ [pitchCenterIndex K pitchAngle - 2, pitchCenterIndex K pitchAngle - 1,
      pitchCenterIndex K pitchAngle, pitchCenterIndex K pitchAngle + 1,
      pitchCenterIndex K pitchAngle + 2], |ii| ≤ 479349 := by
    intro ii hii
    simp only [List.mem_cons, List.mem_singleton, List.not_mem_nil, or_false] at hii
    rw [abs_le]
    rcases hii with h | h | h | h | h <;> subst h <;> constructor <;> omega
  refine ⟨ahiBarBody K ((K.OSD_AHI_WIDTH - 1) * (c.gridElementWidth : Int))
      (floatToInt K ((((K.OSD_AHI_WIDTH - 1) * (c.gridElementWidth : Int) : Int) : ℚ) * (3 / 4)))
      erase,
    ahiLabelBody K c (f32 (-(RADIANS_TO_DEGREES K pitchAngle) * pixelsPerDegreeLevel))
      (K.sin_approx (-rollAngle)) (K.cos_approx rollAngle) erase, ?_, ?_, ?_, ?_, ?_⟩
  · simp only [osdDrawArtificialHorizonShapes, roundf_eq_index,
      ahiLoop_five K _ (pitchCenterIndex K pitchAngle) (by omega)]
    simp [List.flatMap]
  · exact fun ii hii h => ahiBarBody_level _ _ _ _ ii h (hmem ii hii)
  · exact ahiBarBody_zero _ _ _ _
  · exact fun ii hii h => ahiLabelBody_level _ _ _ _ _ _ ii h (hmem ii hii)
  · exact ahiLabelBody_zero _ _ _ _ _ _

/-- C10 as amended, at the upstream configuration on the sample canvas for the pitch 0.5 rad
(28.6 degrees, level index 3) and roll 0 in draw mode. -/
theorem ahi_five_level_lines_witness :
    upstreamConfig.RAD ≠ 0 ∧ |pitchCenterIndex upstreamConfig (1 / 2)| ≤ 479347 ∧
    pitchCenterIndex upstreamConfig (1 / 2) = 3 ∧
    ∃ (bar label : Int → List CanvasCall),
      osdDrawArtificialHorizonShapes upstreamConfig (some sampleCanvas) (1 / 2) 0 false =
        some ([CanvasCall.contextPush] ++ ahiFrame upstreamConfig sampleCanvas false ++
          [CanvasCall.ctmTranslate 0
             (f32 (-(RADIANS_TO_DEGREES upstreamConfig (1 / 2)) * pixelsPerDegreeLevel)),
           CanvasCall.contextPush,
           CanvasCall.ctmRotate (-0),
           CanvasCall.ctmTranslate (intToFloat (Int.tdiv (sampleCanvas.width : Int) 2))
             (intToFloat (Int.tdiv (sampleCanvas.height : Int) 2))] ++
          [pitchCenterIndex upstreamConfig (1 / 2) - 2, pitchCenterIndex upstreamConfig (1 / 2) - 1,
            pitchCenterIndex upstreamConfig (1 / 2), pitchCenterIndex upstreamConfig (1 / 2) + 1,
            pitchCenterIndex upstreamConfig (1 / 2) + 2].flatMap bar ++
          [CanvasCall.contextPop,
           CanvasCall.ctmTranslate (intToFloat (Int.tdiv (sampleCanvas.width : Int) 2))
             (intToFloat (Int.tdiv (sampleCanvas.height : Int) 2)),
           CanvasCall.ctmScale (1 / 2) (1 / 2)] ++
          [pitchCenterIndex upstreamConfig (1 / 2) - 2, pitchCenterIndex upstreamConfig (1 / 2) - 1,
            pitchCenterIndex upstreamConfig (1 / 2), pitchCenterIndex upstreamConfig (1 / 2) + 1,
            pitchCenterIndex upstreamConfig (1 / 2) + 2].flatMap label ++
          [CanvasCall.contextPop]) ∧
      (∀ ii ∈ [pitchCenterIndex upstreamConfig (1 / 2) - 2, pitchCenterIndex upstreamConfig (1 / 2) - 1,
          pitchCenterIndex upstreamConfig (1 / 2), pitchCenterIndex upstreamConfig (1 / 2) + 1,
          pitchCenterIndex upstreamConfig (1 / 2) + 2], ii ≠ 0 →
        bar ii = osdDrawArtificialHorizonLevelLine
          (floatToInt upstreamConfig ((((upstreamConfig.OSD_AHI_WIDTH - 1) * (sampleCanvas.gridElementWidth : Int) : Int) : ℚ) * (3 / 4)))
          (-(35 * ii)) (if ii > 9 ∨ ii < -9 then 9 else 6) false) ∧
      bar 0 =
        [CanvasCall.setLineOutlineType displayCanvasOutlineType_e.DISPLAY_CANVAS_OUTLINE_TYPE_BOTTOM,
         CanvasCall.moveToPoint (-(Int.tdiv ((upstreamConfig.OSD_AHI_WIDTH - 1) * (sampleCanvas.gridElementWidth : Int)) 2)) 0,
         CanvasCall.strokeLineToPoint (-6) 0,
         CanvasCall.moveToPoint (Int.tdiv ((upstreamConfig.OSD_AHI_WIDTH - 1) * (sampleCanvas.gridElementWidth : Int)) 2) 0,
         CanvasCall.strokeLineToPoint 6 0] ∧
      (∀ ii ∈ [pitchCenterIndex upstreamConfig (1 / 2) - 2, pitchCenterIndex upstreamConfig (1 / 2) - 1,
          pitchCenterIndex upstreamConfig (1 / 2), pitchCenterIndex upstreamConfig (1 / 2) + 1,
          pitchCenterIndex upstreamConfig (1 / 2) + 2], ii ≠ 0 → ∃ px py : Int,
        label ii =
          [if false then
            CanvasCall.drawStringMask px py (formatDecimal |10 * ii|)
              displayCanvasColor_e.DISPLAY_CANVAS_COLOR_TRANSPARENT 0
          else CanvasCall.drawString px py (formatDecimal |10 * ii|) 0]) ∧
      label 0 = [] :=
  ⟨by decide!, by decide!, by decide!,
    ahi_five_level_lines upstreamConfig sampleCanvas (1 / 2) 0 false (by decide!) (by decide!)⟩

/-! ## C11: vario arrow height -/

/-- The loop of the vario shape draws one glyph per iteration. -/
theorem varioShapeLoop_characterDraws_length (x : Int) (sym : osdChar) (step : Int)
    (erase : Bool) (n : Nat) (yy : Int) :
    (characterDraws (varioShapeLoop x sym step erase n yy)).length = n := by
  induction n generalizing yy with
  | zero => rfl
  | succ n ih => cases erase <;> simp [varioShapeLoop, characterDraws, ih]

/-- The one clip rectangle of the vario shape and the number of glyphs it draws. -/
theorem varioShape_clip (K : OsdConfig) (c : displayCanvas_t) (ex ey : Nat) (zvel : ℚ)
    (erase : Bool) :
    ∃ (log : List CanvasCall) (y : Int),
      osdCanvasDrawVarioShape K (some c) ex ey zvel erase = some log ∧
      clipRects log = [((ex : Int) * (c.gridElementWidth : Int), y, (c.gridElementWidth : Int),
        varioClipHeight K c zvel)] ∧
      (characterDraws log).length = (K.OSD_VARIO_HEIGHT_ROWS + 1) / 2 := by
  refine ⟨_, ((if zvel > 0 then
        floatToInt K (ceilf (f32 (intToFloat (K.OSD_VARIO_HEIGHT_ROWS : Int) / 2)))
      else floatToInt K (floorf (f32 (intToFloat (K.OSD_VARIO_HEIGHT_ROWS : Int) / 2)))) +
      (ey : Int)) * (c.gridElementHeight : Int), rfl, ?_, ?_⟩
  · simp only [clipRects, varioShapeLoop_clipRects, varioClipHeight]
  · simp only [characterDraws, varioShapeLoop_characterDraws_length]

/-- For a velocity between `2 * S * a` and `2 * S * b`, `a` and `b` integers with `a *
gridElementHeight` and `b * gridElementHeight` below `2 ^ 24`, the `float` product `-ratio *
gridElementHeight` lies between `-(b * gridElementHeight)` and `-(a * gridElementHeight)`. -/
theorem varioProduct_between (K : OsdConfig) (c : displayCanvas_t)
    (hS : 0 < K.OSD_VARIO_CM_S_PER_ARROW) (hS2 : K.OSD_VARIO_CM_S_PER_ARROW * 2 ≤ 2 ^ 24)
    (hg : (c.gridElementHeight : Int) ≤ 2 ^ 24) (a b : Int) (ha : |a| < 2 ^ 24)
    (hb : |b| < 2 ^ 24) (hag : |a * (c.gridElementHeight : Int)| < 2 ^ 24)
    (hbg : |b * (c.gridElementHeight : Int)| < 2 ^ 24) (z : ℚ)
    (h1 : (((K.OSD_VARIO_CM_S_PER_ARROW * 2 * a : Int)) : ℚ) ≤ z)
    (h2 : z ≤ (((K.OSD_VARIO_CM_S_PER_ARROW * 2 * b : Int)) : ℚ)) :
    (((-(b * (c.gridElementHeight : Int)) : Int)) : ℚ) ≤
      f32 (-(f32 (z / intToFloat (K.OSD_VARIO_CM_S_PER_ARROW * 2))) *
        intToFloat (c.gridElementHeight : Int)) ∧
    f32 (-(f32 (z / intToFloat (K.OSD_VARIO_CM_S_PER_ARROW * 2))) *
        intToFloat (c.gridElementHeight : Int)) ≤
      (((-(a * (c.gridElementHeight : Int)) : Int)) : ℚ) := by
  have e1 : intToFloat (K.OSD_VARIO_CM_S_PER_ARROW * 2) =
      ((K.OSD_VARIO_CM_S_PER_ARROW * 2 : Int) : ℚ) :=
    intToFloat_exact _ (by rw [abs_le]; constructor <;> omega)
  have hg0 : (0 : Int) ≤ (c.gridElementHeight : Int) := Int.natCast_nonneg _
  have e2 : intToFloat (c.gridElementHeight : Int) = ((c.gridElementHeight : Int) : ℚ) :=
    intToFloat_exact _ (by rw [abs_le]; constructor <;> omega)
  have hd : (0 : ℚ) < ((K.OSD_VARIO_CM_S_PER_ARROW * 2 : Int) : ℚ) := by
    exact_mod_cast (by omega : (0 : Int) < K.OSD_VARIO_CM_S_PER_ARROW * 2)
  have hgq : (0 : ℚ) ≤ ((c.gridElementHeight : Int) : ℚ) := by exact_mod_cast hg0
  have q1 : (a : ℚ) ≤ z / ((K.OSD_VARIO_CM_S_PER_ARROW * 2 : Int) : ℚ) := by
    rw [le_div_iff₀ hd]
    have : (((K.OSD_VARIO_CM_S_PER_ARROW * 2 * a : Int)) : ℚ) =
        (a : ℚ) * ((K.OSD_VARIO_CM_S_PER_ARROW * 2 : Int) : ℚ) := by push_cast; ring
    rw [← this]; exact h1
  have q2 : z / ((K.OSD_VARIO_CM_S_PER_ARROW * 2 : Int) : ℚ) ≤ (b : ℚ) := by
    rw [div_le_iff₀ hd]
    have : (((K.OSD_VARIO_CM_S_PER_ARROW * 2 * b : Int)) : ℚ) =
        (b : ℚ) * ((K.OSD_VARIO_CM_S_PER_ARROW * 2 : Int) : ℚ) := by push_cast; ring
    rw [← this]; exact h2
  obtain ⟨r1, r2⟩ := f32_between (f32_intCast a (le_of_lt ha)) (f32_intCast b (le_of_lt hb)) q1 q2
  rw [e1, e2]
  have p1 : (((-(b * (c.gridElementHeight : Int)) : Int)) : ℚ) ≤
      -(f32 (z / ((K.OSD_VARIO_CM_S_PER_ARROW * 2 : Int) : ℚ))) *
        ((c.gridElementHeight : Int) : ℚ) := by
    have hh := mul_le_mul_of_nonneg_right r2 hgq
    have e : (((-(b * (c.gridElementHeight : Int)) : Int)) : ℚ) =
        -((b : ℚ) * ((c.gridElementHeight : Int) : ℚ)) := by push_cast; ring
    rw [e]
    linarith
  have p2 : -(f32 (z / ((K.OSD_VARIO_CM_S_PER_ARROW * 2 : Int) : ℚ))) *
        ((c.gridElementHeight : Int) : ℚ) ≤
      (((-(a * (c.gridElementHeight : Int)) : Int)) : ℚ) := by
    have hh := mul_le_mul_of_nonneg_right r1 hgq
    have e : (((-(a * (c.gridElementHeight : Int)) : Int)) : ℚ) =
        -((a : ℚ) * ((c.gridElementHeight : Int) : ℚ)) := by push_cast; ring
    rw [e]
    linarith
  exact f32_between (f32_intCast _ (by rw [abs_neg]; exact le_of_lt hbg))
    (f32_intCast _ (by rw [abs_neg]; exact le_of_lt hag)) p1 p2

/-- For a velocity between `2 * S * a` and `2 * S * b` as above, the clip height is the
truncated `float` product and lies between `-(b * gridElementHeight)` and `-(a *
gridElementHeight)`. -/
theorem varioClipHeight_between (K : OsdConfig) (c : displayCanvas_t)
    (hS : 0 < K.OSD_VARIO_CM_S_PER_ARROW) (hS2 : K.OSD_VARIO_CM_S_PER_ARROW * 2 ≤ 2 ^ 24)
    (hg : (c.gridElementHeight : Int) ≤ 2 ^ 24) (a b : Int) (ha : |a| < 2 ^ 24)
    (hb : |b| < 2 ^ 24) (hag : |a * (c.gridElementHeight : Int)| < 2 ^ 24)
    (hbg : |b * (c.gridElementHeight : Int)| < 2 ^ 24) (z : ℚ)
    (h1 : (((K.OSD_VARIO_CM_S_PER_ARROW * 2 * a : Int)) : ℚ) ≤ z)
    (h2 : z ≤ (((K.OSD_VARIO_CM_S_PER_ARROW * 2 * b : Int)) : ℚ)) :
    varioClipHeight K c z =
      truncf (f32 (-(f32 (z / intToFloat (K.OSD_VARIO_CM_S_PER_ARROW * 2))) *
        intToFloat (c.gridElementHeight : Int))) ∧
    -(b * (c.gridElementHeight : Int)) ≤ varioClipHeight K c z ∧
    varioClipHeight K c z ≤ -(a * (c.gridElementHeight : Int)) := by
  obtain ⟨p1, p2⟩ := varioProduct_between K c hS hS2 hg a b ha hb hag hbg z h1 h2
  have hb1 := neg_abs_le (b * (c.gridElementHeight : Int))
  have hb2 := le_abs_self (b * (c.gridElementHeight : Int))
  have ha1 := neg_abs_le (a * (c.gridElementHeight : Int))
  have ha2 := le_abs_self (a * (c.gridElementHeight : Int))
  unfold varioClipHeight
  exact floatToInt_between K (by omega) (by omega) p1 p2

/-- C11 as stated fails. At the upstream scale on the sample canvas the `float` velocity
`16019911 / 2 ^ 18` (61.1 cm/s) gives the clip height -11: the `float` product `-ratio *
gridElementHeight` rounds to -11.0, while the exact value of `-(zvel / (2 *
OSD_VARIO_CM_S_PER_ARROW)) * gridElementHeight` is -10.9999999 and truncates to -10. -/
theorem vario_clip_height_rounds :
    f32 (16019911 / 2 ^ 18) = 16019911 / 2 ^ 18 ∧
    (osdCanvasDrawVarioShape upstreamConfig (some sampleCanvas) 0 0 (16019911 / 2 ^ 18) false).map
      clipRects = some [(0, 54, 12, -11)] ∧
    truncf (-((16019911 / 2 ^ 18 : ℚ) / ((2 * upstreamConfig.OSD_VARIO_CM_S_PER_ARROW : Int) : ℚ)) *
      (sampleCanvas.gridElementHeight : ℚ)) = -10 := by
  refine ⟨by decide!, by decide!, by decide!⟩

/-- C11 as amended. Vario arrow height: `osdCanvasDrawVarioShape` issues one clip rectangle,
of width `gridElementWidth` and of the height that `float` arithmetic gives, the `float`
product `-ratio * gridElementHeight` with `ratio = zvel / (OSD_VARIO_CM_S_PER_ARROW * 2)`
converted to `int` (`varioClipHeight`). The only bound on its magnitude for every `zvel` is
the range of `int`, `2 ^ 31`: the height is not clamped to the instrument. It follows the
vertical speed in proportion: with a positive scale `S`, for integers `a <= b` (with `2 *
S`, `gridElementHeight`, `a`, `b`, `a * gridElementHeight` and `b * gridElementHeight`
small enough to be `float`s) and `2 * S * a <= zvel <= 2 * S * b`, the height lies between
`-(b * gridElementHeight)` and `-(a * gridElementHeight)`, so it is `-(k *
gridElementHeight)` exactly at `zvel = 2 * S * k`, and it does not increase with `zvel`
in that range. Independent of `zvel` is the number of glyphs drawn,
`(OSD_VARIO_HEIGHT_ROWS + 1) / 2`. -/
theorem vario_clip_height (K : OsdConfig) (c : displayCanvas_t) (ex ey : Nat) (zvel : ℚ)
    (erase : Bool) :
    (∃ (log : List CanvasCall) (y : Int),
      osdCanvasDrawVarioShape K (some c) ex ey zvel erase = some log ∧
      clipRects log = [((ex : Int) * (c.gridElementWidth : Int), y, (c.gridElementWidth : Int),
        varioClipHeight K c zvel)] ∧
      (characterDraws log).length = (K.OSD_VARIO_HEIGHT_ROWS + 1) / 2) ∧
    varioClipHeight K c zvel =
      floatToInt K (f32 (-(f32 (zvel / intToFloat (K.OSD_VARIO_CM_S_PER_ARROW * 2))) *
        intToFloat (c.gridElementHeight : Int))) ∧
    |varioClipHeight K c zvel| ≤ 2 ^ 31 ∧
    (0 < K.OSD_VARIO_CM_S_PER_ARROW → K.OSD_VARIO_CM_S_PER_ARROW * 2 ≤ 2 ^ 24 →
      (c.gridElementHeight : Int) ≤ 2 ^ 24 →
      ∀ a b : Int, |a| < 2 ^ 24 → |b| < 2 ^ 24 →
        |a * (c.gridElementHeight : Int)| < 2 ^ 24 → |b * (c.gridElementHeight : Int)| < 2 ^ 24 →
        (((K.OSD_VARIO_CM_S_PER_ARROW * 2 * a : Int)) : ℚ) ≤ zvel →
        zvel ≤ (((K.OSD_VARIO_CM_S_PER_ARROW * 2 * b : Int)) : ℚ) →
        -(b * (c.gridElementHeight : Int)) ≤ varioClipHeight K c zvel ∧
        varioClipHeight K c zvel ≤ -(a * (c.gridElementHeight : Int)) ∧
        ∀ zvel2 : ℚ, zvel ≤ zvel2 →
          zvel2 ≤ (((K.OSD_VARIO_CM_S_PER_ARROW * 2 * b : Int)) : ℚ) →
          varioClipHeight K c zvel2 ≤ varioClipHeight K c zvel) := by
  refine ⟨varioShape_clip K c ex ey zvel erase, rfl, ?_, ?_⟩
  · have h := floatToInt_range K
      (f32 (-(f32 (zvel / intToFloat (K.OSD_VARIO_CM_S_PER_ARROW * 2))) *
        intToFloat (c.gridElementHeight : Int)))
    unfold varioClipHeight
    rw [abs_le]
    constructor <;> omega
  · intro hS hS2 hg a b ha hb hag hbg h1 h2
    obtain ⟨e1, l1, u1⟩ := varioClipHeight_between K c hS hS2 hg a b ha hb hag hbg zvel h1 h2
    refine ⟨l1, u1, ?_⟩
    intro zvel2 h12 h3
    obtain ⟨e2, _, _⟩ := varioClipHeight_between K c hS hS2 hg a b ha hb hag hbg zvel2
      (le_trans h1 h12) h3
    rw [e1, e2]
    apply truncf_mono
    apply f32_mono
    have hd : (0 : ℚ) ≤ intToFloat (K.OSD_VARIO_CM_S_PER_ARROW * 2) :=
      f32_nonneg (by exact_mod_cast (by omega : (0 : Int) ≤ K.OSD_VARIO_CM_S_PER_ARROW * 2))
    have hgq : (0 : ℚ) ≤ intToFloat (c.gridElementHeight : Int) :=
      f32_nonneg (by exact_mod_cast (Int.natCast_nonneg _))
    have hr : f32 (zvel / intToFloat (K.OSD_VARIO_CM_S_PER_ARROW * 2)) ≤
        f32 (zvel2 / intToFloat (K.OSD_VARIO_CM_S_PER_ARROW * 2)) :=
      f32_mono (div_le_div_of_nonneg_right h12 hd)
    have := mul_le_mul_of_nonneg_right hr hgq
    linarith

/-- C11 as amended, at the upstream scale on the sample canvas: the velocity 100000 cm/s (`a =
b = 1000`) gives the clip height -18000, far beyond the 288 rows of the canvas. -/
theorem vario_clip_height_witness :
    (0 < upstreamConfig.OSD_VARIO_CM_S_PER_ARROW ∧
      upstreamConfig.OSD_VARIO_CM_S_PER_ARROW * 2 ≤ 2 ^ 24 ∧
      (sampleCanvas.gridElementHeight : Int) ≤ 2 ^ 24 ∧ |(1000 : Int)| < 2 ^ 24 ∧
      |(1000 : Int) * (sampleCanvas.gridElementHeight : Int)| < 2 ^ 24 ∧
      (((upstreamConfig.OSD_VARIO_CM_S_PER_ARROW * 2 * 1000 : Int)) : ℚ) ≤ 100000 ∧
      (100000 : ℚ) ≤ (((upstreamConfig.OSD_VARIO_CM_S_PER_ARROW * 2 * 1000 : Int)) : ℚ)) ∧
    -(1000 * (sampleCanvas.gridElementHeight : Int)) ≤
      varioClipHeight upstreamConfig sampleCanvas 100000 ∧
    varioClipHeight upstreamConfig sampleCanvas 100000 ≤
      -(1000 * (sampleCanvas.gridElementHeight : Int)) ∧
    -(1000 * (sampleCanvas.gridElementHeight : Int)) = -18000 :=
  have h := (vario_clip_height upstreamConfig sampleCanvas 0 0 100000 false).2.2.2 (by decide)
    (by decide) (by decide) 1000 1000 (by decide) (by decide) (by decide) (by decide)
    (by norm_num [upstreamConfig]) (by norm_num [upstreamConfig])
  ⟨⟨by decide, by decide, by decide, by decide, by decide, by norm_num [upstreamConfig],
    by norm_num [upstreamConfig]⟩, h.1, h.2.1, by decide⟩

/-! ## C12: heading strip scrolling -/

/-- For a non-negative heading the scroll position is `heading * gw / D`, rounded down. -/
theorem headingScroll_eq (K : OsdConfig) (gw heading : Int)
    (hD : 0 < K.OSD_HEADING_GRAPH_DECIDEGREES_PER_CHAR) (hgw : 0 < gw) (h0 : 0 ≤ heading) :
    headingScroll K gw heading = (heading * gw) / K.OSD_HEADING_GRAPH_DECIDEGREES_PER_CHAR := by
  unfold headingScroll
  generalize K.OSD_HEADING_GRAPH_DECIDEGREES_PER_CHAR = D at hD ⊢
  have hDle : 0 ≤ D := le_of_lt hD
  have hr0 : 0 ≤ heading % D := Int.emod_nonneg heading (ne_of_gt hD)
  rw [Int.tdiv_eq_ediv h0 hDle, Int.tmod_eq_emod h0 hDle,
    Int.tdiv_eq_ediv (Int.mul_nonneg hr0 (le_of_lt hgw)) hDle]
  have hsplit : heading * gw = D * (heading / D * gw) + heading % D * gw := by
    have := Int.ediv_add_emod heading D
    calc heading * gw = (D * (heading / D) + heading % D) * gw := by rw [this]
      _ = D * (heading / D * gw) + heading % D * gw := by ring
  rw [hsplit, Int.add_comm (D * (heading / D * gw)), Int.add_mul_ediv_left _ _ (ne_of_gt hD)]
  ring

/-- For a non-negative heading the sub-character offset is in `[0, gw)`. -/
theorem headingOffset_range (D gw heading : Int) (hD : 0 < D) (hgw : 0 < gw)
    (h0 : 0 ≤ heading) :
    0 ≤ Int.tdiv (Int.tmod heading D * gw) D ∧ Int.tdiv (Int.tmod heading D * gw) D < gw := by
  have hDle : 0 ≤ D := le_of_lt hD
  have hr0 : 0 ≤ heading % D := Int.emod_nonneg heading (ne_of_gt hD)
  have hr1 : heading % D < D := Int.emod_lt_of_pos heading hD
  rw [Int.tmod_eq_emod h0 hDle, Int.tdiv_eq_ediv (Int.mul_nonneg hr0 (le_of_lt hgw)) hDle]
  constructor
  · exact Int.ediv_nonneg (Int.mul_nonneg hr0 (le_of_lt hgw)) hDle
  · apply Int.ediv_lt_of_lt_mul hD
    rw [mul_comm gw D]
    exact mul_lt_mul_of_pos_right hr1 hgw

/-- Integer division by a positive divisor is the floor of the quotient. -/
theorem int_ediv_floor (a D : Int) (hD : 0 < D) : ⌊(a : ℚ) / (D : ℚ)⌋ = a / D := by
  rw [Int.floor_eq_iff]
  have hDq : (0 : ℚ) < (D : ℚ) := by exact_mod_cast hD
  constructor
  · rw [le_div_iff₀ hDq]
    exact_mod_cast Int.ediv_mul_le a (ne_of_gt hD)
  · rw [div_lt_iff₀ hDq]
    have := Int.lt_ediv_add_one_mul_self a hD
    exact_mod_cast this

/-- C12 as stated fails: heading 4050 is non-negative and the sample cell is 12 pixels wide,
but the window that starts at `4050 / 225 = 18` ends at index 26, outside the 26-entry
table, so the copy into `buf` has no result. -/
theorem heading_window_leaves_table :
    0 ≤ (4050 : Int) ∧ 0 < sampleCanvas.gridElementWidth ∧
    osdCanvasDrawHeadingGraph upstreamConfig (some sampleCanvas) 0 0 4050 = none ∧
    readAt graph (Int.tdiv 4050 upstreamConfig.OSD_HEADING_GRAPH_DECIDEGREES_PER_CHAR + 8) = none := by
  decide

/-- C12 as amended. Heading strip scrolling: for every heading >= 0 whose window lies inside
the table (`heading / D + W <= length(graph)`), with `D > 0` and `gridElementWidth > 0`,
`osdCanvasDrawHeadingGraph` draws the `W`-character window of the table that starts at
`idx = heading / D` at `x = px - offset + 1`, where `offset = ((heading % D) * gw) / D`
satisfies `0 <= offset < gw`; the scroll `idx * gw + offset` equals `floor(heading * gw
/ D)` and does not decrease when the heading grows. -/
theorem heading_strip_scroll (K : OsdConfig) (c : displayCanvas_t) (px py heading : Int)
    (hD : 0 < K.OSD_HEADING_GRAPH_DECIDEGREES_PER_CHAR) (hgw : 0 < c.gridElementWidth)
    (h0 : 0 ≤ heading)
    (hwin : Int.tdiv heading K.OSD_HEADING_GRAPH_DECIDEGREES_PER_CHAR +
      (K.OSD_HEADING_GRAPH_WIDTH : Int) ≤ (graph.length : Int)) :
    osdCanvasDrawHeadingGraph K (some c) px py heading =
      some [CanvasCall.clipToRect px py
          ((K.OSD_HEADING_GRAPH_WIDTH : Int) * (c.gridElementWidth : Int))
          (c.gridElementHeight : Int),
        CanvasCall.drawString
          (px - Int.tdiv (Int.tmod heading K.OSD_HEADING_GRAPH_DECIDEGREES_PER_CHAR *
            (c.gridElementWidth : Int)) K.OSD_HEADING_GRAPH_DECIDEGREES_PER_CHAR + 1) py
          ((graph.drop (Int.tdiv heading K.OSD_HEADING_GRAPH_DECIDEGREES_PER_CHAR).toNat).take
            K.OSD_HEADING_GRAPH_WIDTH)
          DISPLAY_CANVAS_BITMAP_OPT_ERASE_TRANSPARENT,
        CanvasCall.setStrokeColor displayCanvasColor_e.DISPLAY_CANVAS_COLOR_BLACK,
        CanvasCall.setFillColor displayCanvasColor_e.DISPLAY_CANVAS_COLOR_WHITE,
        CanvasCall.fillStrokeTriangle
          (px + Int.tdiv ((K.OSD_HEADING_GRAPH_WIDTH : Int) * (c.gridElementWidth : Int)) 2 - 2)
          (py - 1)
          (px + Int.tdiv ((K.OSD_HEADING_GRAPH_WIDTH : Int) * (c.gridElementWidth : Int)) 2 + 2)
          (py - 1)
          (px + Int.tdiv ((K.OSD_HEADING_GRAPH_WIDTH : Int) * (c.gridElementWidth : Int)) 2)
          (py + 1)] ∧
    0 ≤ Int.tdiv (Int.tmod heading K.OSD_HEADING_GRAPH_DECIDEGREES_PER_CHAR *
      (c.gridElementWidth : Int)) K.OSD_HEADING_GRAPH_DECIDEGREES_PER_CHAR ∧
    Int.tdiv (Int.tmod heading K.OSD_HEADING_GRAPH_DECIDEGREES_PER_CHAR *
      (c.gridElementWidth : Int)) K.OSD_HEADING_GRAPH_DECIDEGREES_PER_CHAR
        < (c.gridElementWidth : Int) ∧
    headingScroll K (c.gridElementWidth : Int) heading =
      ⌊((heading * (c.gridElementWidth : Int) : Int) : ℚ) /
        (K.OSD_HEADING_GRAPH_DECIDEGREES_PER_CHAR : ℚ)⌋ ∧
    (∀ heading2 : Int, heading ≤ heading2 →
      headingScroll K (c.gridElementWidth : Int) heading ≤
        headingScroll K (c.gridElementWidth : Int) heading2) := by
  have hgw' : (0 : Int) < (c.gridElementWidth : Int) := by exact_mod_cast hgw
  have hidx0 : 0 ≤ Int.tdiv heading K.OSD_HEADING_GRAPH_DECIDEGREES_PER_CHAR := by
    rw [Int.tdiv_eq_ediv h0 (le_of_lt hD)]
    exact Int.ediv_nonneg h0 (le_of_lt hD)
  have hcopy := memcpyFrom_inside graph K.OSD_HEADING_GRAPH_WIDTH
    (Int.tdiv heading K.OSD_HEADING_GRAPH_DECIDEGREES_PER_CHAR) hidx0 hwin
  obtain ⟨ho0, ho1⟩ := headingOffset_range K.OSD_HEADING_GRAPH_DECIDEGREES_PER_CHAR
    (c.gridElementWidth : Int) heading hD hgw' h0
  refine ⟨?_, ho0, ho1, ?_, ?_⟩
  · simp only [osdCanvasDrawHeadingGraph, hcopy]
  · rw [int_ediv_floor _ _ hD]
    exact headingScroll_eq K _ heading hD hgw' h0
  · intro heading2 h2
    rw [headingScroll_eq K _ heading hD hgw' h0,
      headingScroll_eq K _ heading2 hD hgw' (le_trans h0 h2)]
    exact Int.ediv_le_ediv hD (Int.mul_le_mul_of_nonneg_right h2 (le_of_lt hgw'))

/-- C12 as amended, at the upstream `D = 225`, `W = 9`, the sample canvas and heading 1000. -/
theorem heading_strip_scroll_witness :
    (0 < upstreamConfig.OSD_HEADING_GRAPH_DECIDEGREES_PER_CHAR ∧
      0 < sampleCanvas.gridElementWidth ∧ (0 : Int) ≤ 1000 ∧
      Int.tdiv 1000 upstreamConfig.OSD_HEADING_GRAPH_DECIDEGREES_PER_CHAR +
        (upstreamConfig.OSD_HEADING_GRAPH_WIDTH : Int) ≤ (graph.length : Int)) ∧
    headingScroll upstreamConfig (sampleCanvas.gridElementWidth : Int) 1000 =
      ⌊((1000 * (sampleCanvas.gridElementWidth : Int) : Int) : ℚ) /
        (upstreamConfig.OSD_HEADING_GRAPH_DECIDEGREES_PER_CHAR : ℚ)⌋ :=
  ⟨⟨by decide, by decide, by decide, by decide⟩,
    (heading_strip_scroll upstreamConfig sampleCanvas 100 50 1000 (by decide) (by decide)
      (by decide) (by decide)).2.2.2.1⟩

/-! ## C13: CTM call order -/

/-- The calls of `osdCanvasDrawHeadingGraph` at the upstream configuration for a heading
that is a multiple of 225 whose window lies inside the table. -/
theorem heading_cardinal_window (h : Int) (n : Nat)
    (hmod : Int.tmod h 225 = 0) (hidx : Int.tdiv h 225 = (n : Int)) (hn : n + 9 ≤ 26)
    (c : displayCanvas_t) (px py : Int) :
    osdCanvasDrawHeadingGraph upstreamConfig (some c) px py h =
      some [CanvasCall.clipToRect px py (9 * (c.gridElementWidth : Int)) (c.gridElementHeight : Int),
        CanvasCall.drawString (px - 0 + 1) py ((graph.drop n).take 9)
          DISPLAY_CANVAS_BITMAP_OPT_ERASE_TRANSPARENT,
        CanvasCall.setStrokeColor displayCanvasColor_e.DISPLAY_CANVAS_COLOR_BLACK,
        CanvasCall.setFillColor displayCanvasColor_e.DISPLAY_CANVAS_COLOR_WHITE,
        CanvasCall.fillStrokeTriangle (px + Int.tdiv (9 * (c.gridElementWidth : Int)) 2 - 2) (py - 1)
          (px + Int.tdiv (9 * (c.gridElementWidth : Int)) 2 + 2) (py - 1)
          (px + Int.tdiv (9 * (c.gridElementWidth : Int)) 2) (py + 1)] := by
  have hD : upstreamConfig.OSD_HEADING_GRAPH_DECIDEGREES_PER_CHAR = 225 := rfl
  have hW : upstreamConfig.OSD_HEADING_GRAPH_WIDTH = 9 := rfl
  have hlen : graph.length = 26 := rfl
  have hcopy := memcpyFrom_inside graph 9 (n : Int) (by omega) (by rw [hlen]; omega)
  rw [Int.toNat_ofNat] at hcopy
  simp only [osdCanvasDrawHeadingGraph, hD, hW, hmod, hidx, hcopy]
  simp

/-- C14. Compass correctness of the heading table at the upstream `W = 9`, `D = 225`: for
the headings 0, 900, 1800 and 2700 the sub-character offset is 0 for every cell width,
`graph[heading / D + W / 2]` is `SYM_HEADING_N`, `SYM_HEADING_E`, `SYM_HEADING_S`,
`SYM_HEADING_W`, and this is the middle character of the string that
`osdCanvasDrawHeadingGraph` draws at `px + 1`; the table has period 16: `graph[i + 16] =
graph[i]` whenever `i + 16 < 26`. -/
theorem compass_cardinals_and_period :
    (∀ p ∈ [((0 : Int), osdChar.SYM_HEADING_N), (900, osdChar.SYM_HEADING_E),
        (1800, osdChar.SYM_HEADING_S), (2700, osdChar.SYM_HEADING_W)],
      (∀ gw : Int,
        Int.tdiv (Int.tmod p.1 upstreamConfig.OSD_HEADING_GRAPH_DECIDEGREES_PER_CHAR * gw)
          upstreamConfig.OSD_HEADING_GRAPH_DECIDEGREES_PER_CHAR = 0) ∧
      readAt graph (Int.tdiv p.1 upstreamConfig.OSD_HEADING_GRAPH_DECIDEGREES_PER_CHAR +
        ((upstreamConfig.OSD_HEADING_GRAPH_WIDTH / 2 : Nat) : Int)) = some p.2 ∧
      ∃ buf : List osdChar,
        buf.get? (upstreamConfig.OSD_HEADING_GRAPH_WIDTH / 2) = some p.2 ∧
        ∀ (c : displayCanvas_t) (px py : Int),
          osdCanvasDrawHeadingGraph upstreamConfig (some c) px py p.1 =
            some [CanvasCall.clipToRect px py (9 * (c.gridElementWidth : Int))
                (c.gridElementHeight : Int),
              CanvasCall.drawString (px - 0 + 1) py buf DISPLAY_CANVAS_BITMAP_OPT_ERASE_TRANSPARENT,
              CanvasCall.setStrokeColor displayCanvasColor_e.DISPLAY_CANVAS_COLOR_BLACK,
              CanvasCall.setFillColor displayCanvasColor_e.DISPLAY_CANVAS_COLOR_WHITE,
              CanvasCall.fillStrokeTriangle
                (px + Int.tdiv (9 * (c.gridElementWidth : Int)) 2 - 2) (py - 1)
                (px + Int.tdiv (9 * (c.gridElementWidth : Int)) 2 + 2) (py - 1)
                (px + Int.tdiv (9 * (c.gridElementWidth : Int)) 2) (py + 1)]) ∧
    (∀ i : Nat, i + 16 < graph.length → graph.get? (i + 16) = graph.get? i) := by
  have hD : upstreamConfig.OSD_HEADING_GRAPH_DECIDEGREES_PER_CHAR = 225 := rfl
  have hW : upstreamConfig.OSD_HEADING_GRAPH_WIDTH = 9 := rfl
  refine ⟨?_, ?_⟩
  · intro p hp
    simp only [List.mem_cons, List.mem_singleton, List.not_mem_nil, or_false] at hp
    rw [hD, hW]
    rcases hp with rfl | rfl | rfl | rfl
    · refine ⟨fun gw => ?_, by decide, (graph.drop 0).take 9, by decide,
        heading_cardinal_window 0 0 (by decide) (by decide) (by decide)⟩
      have : Int.tmod 0 225 = 0 := by decide
      simp [this]
    · refine ⟨fun gw => ?_, by decide, (graph.drop 4).take 9, by decide,
        heading_cardinal_window 900 4 (by decide) (by decide) (by decide)⟩
      have : Int.tmod 900 225 = 0 := by decide
      simp [this]
    · refine ⟨fun gw => ?_, by decide, (graph.drop 8).take 9, by decide,
        heading_cardinal_window 1800 8 (by decide) (by decide) (by decide)⟩
      have : Int.tmod 1800 225 = 0 := by decide
      simp [this]
    · refine ⟨fun gw => ?_, by decide, (graph.drop 12).take 9, by decide,
        heading_cardinal_window 2700 12 (by decide) (by decide) (by decide)⟩
      have : Int.tmod 2700 225 = 0 := by decide
      simp [this]
  · intro i hi
    have hi' : i < 10 := by
      have : graph.length = 26 := rfl
      omega
    interval_cases i <;> rfl

/-! ## C15: VTX menu save -/

/-- No menu callback writes `vtxCmsBand`, `vtxCmsChan` or `vtxCmsPower`. -/
theorem vtxMenuApply_keeps_statics (f : Nat → Nat → Nat) (s : VtxCmsState) (e : VtxMenuEdit) :
    (vtxMenuApply f s e).vtxCmsBand = s.vtxCmsBand ∧
    (vtxMenuApply f s e).vtxCmsChan = s.vtxCmsChan ∧
    (vtxMenuApply f s e).vtxCmsPower = s.vtxCmsPower := by
  cases e with
  | pit v =>
    simp only [vtxMenuApply, vtxCmsSetPitMode]
    split_ifs <;> exact ⟨rfl, rfl, rfl⟩
  | band v =>
    simp only [vtxMenuApply, vtxCmsConfigBand, vtxCmsUpdateFreq]
    split_ifs <;> exact ⟨rfl, rfl, rfl⟩
  | chan v =>
    simp only [vtxMenuApply, vtxCmsConfigChan, vtxCmsUpdateFreq]
    split_ifs <;> exact ⟨rfl, rfl, rfl⟩
  | power v =>
    simp only [vtxMenuApply, vtxCmsConfigPower]
    split_ifs <;> exact ⟨rfl, rfl, rfl⟩

/-- No sequence of operator edits changes `vtxCmsBand`, `vtxCmsChan` or `vtxCmsPower`. -/
theorem vtxMenuEdits_keep_statics (f : Nat → Nat → Nat) (edits : List VtxMenuEdit) :
    ∀ s : VtxCmsState,
      (edits.foldl (vtxMenuApply f) s).vtxCmsBand = s.vtxCmsBand ∧
      (edits.foldl (vtxMenuApply f) s).vtxCmsChan = s.vtxCmsChan ∧
      (edits.foldl (vtxMenuApply f) s).vtxCmsPower = s.vtxCmsPower := by
  induction edits with
  | nil => intro s; exact ⟨rfl, rfl, rfl⟩
  | cons e edits ih =>
    intro s
    obtain ⟨h1, h2, h3⟩ := ih (vtxMenuApply f s e)
    obtain ⟨k1, k2, k3⟩ := vtxMenuApply_keeps_statics f s e
    rw [List.foldl_cons, h1, h2, h3]
    exact ⟨k1, k2, k3⟩

/-- Whatever the device reports and whatever the operator selects, a session from program
start ends with `vtxCmsSet` writing band 0, channel 0, power 0 and the frequency of band
0, channel 0: the statics it reads are never assigned. -/
theorem vtxCmsSet_writes_zero (f : Nat → Nat → Nat) (device : Option VtxDeviceReport)
    (cfg : vtxSettingsConfig_t) (edits : List VtxMenuEdit) :
    vtxMenuSession f device (VtxCmsState.init cfg) edits =
      ({ (edits.foldl (vtxMenuApply f) (vtxCmsOnEnter f device (VtxCmsState.init cfg)).1) with
          settings := ⟨0, 0, 0, f 0 0⟩ }, MENU_CHAIN_BACK) := by
  obtain ⟨h1, h2, h3⟩ := vtxMenuEdits_keep_statics f edits
    (vtxCmsOnEnter f device (VtxCmsState.init cfg)).1
  have e1 : (vtxCmsOnEnter f device (VtxCmsState.init cfg)).1.vtxCmsBand = 0 := rfl
  have e2 : (vtxCmsOnEnter f device (VtxCmsState.init cfg)).1.vtxCmsChan = 0 := rfl
  have e3 : (vtxCmsOnEnter f device (VtxCmsState.init cfg)).1.vtxCmsPower = 0 := rfl
  simp only [vtxMenuSession, vtxCmsSet, h1, h2, h3, e1, e2, e3]

/-- C15 at the failing input. The device reports band 1, channel 1, power index 0; the
operator selects band 3, channel 5, power index 2. After `vtxCmsSet`, `vtxData` holds
the selection (3, 5, 2) and the displayed frequency is that of band 3, channel 5, but
the settings hold band 0, channel 0, power 0 and the frequency of band 0, channel 0; the
return value is `MENU_CHAIN_BACK`. -/
theorem vtxCmsSet_drops_selection (f : Nat → Nat → Nat) (cfg : vtxSettingsConfig_t) :
    (vtxMenuSession f (some sampleVtxDevice) (VtxCmsState.init cfg) sampleVtxEdits).1.vtxData
      = ⟨1, 3, 5, 2⟩ ∧
    (vtxMenuSession f (some sampleVtxDevice) (VtxCmsState.init cfg) sampleVtxEdits).1.vtxCmsFreq
      = f 3 5 ∧
    (vtxMenuSession f (some sampleVtxDevice) (VtxCmsState.init cfg) sampleVtxEdits).1.settings
      = ⟨0, 0, 0, f 0 0⟩ ∧
    (vtxMenuSession f (some sampleVtxDevice) (VtxCmsState.init cfg) sampleVtxEdits).2
      = MENU_CHAIN_BACK := by
  refine ⟨rfl, rfl, rfl, rfl⟩

end Inav
